import Mathlib

/-!
# Verification of the rbxlx-to-md / md-to-rbxlx transcoder

A shallow embedding of the path codec, property codec, tree walker and tree
builder of the repository (`src/rbxlx-to-md.py`, `src/property_handlers.py`,
`src/md-to-rbxlx.py`), together with proofs about the specified properties.

Python strings are modelled as Lean `String`s; the Python string operations
used by the code (`find`, `split`, `strip`, `startswith`, slicing, …) are
embedded as explicit functions on `List Char`.  Python's unicode-table
classifications (`str.isdigit`, `str.lower`, `\s`) are modelled by their
ASCII behaviour, which is exact on all data the programs exchange.
A Python exception is modelled as `Option.none` in functions that can raise.
-/

namespace RbxlxMd

/-! ## Path codec (rbxlx-to-md.py `format_name` / path join,
    md-to-rbxlx.py `parse_path_components`) -/

/-- `format_name` (rbxlx-to-md.py lines 14-18): wrap the name in `["..."]`
when it contains a space, else return it unchanged. -/
def format_name (name : String) : String :=
  if name.data.contains ' ' then "[\"" ++ name ++ "\"]" else name

/-- The path-building step of `get_item_path` (rbxlx-to-md.py lines 248-252):
join with a `.` separator unless the raw name contains a space, in which
case the bracket-quoted segment is concatenated directly. -/
def joinPath (parent_path : String) (name : String) : String :=
  let formatted_name := format_name name
  if parent_path ≠ "" then
    if name.data.contains ' ' then parent_path ++ formatted_name
    else parent_path ++ "." ++ formatted_name
  else formatted_name

/-- Encoding a sequence of names into a path by repeated joining. -/
def encodePath (names : List String) : String := names.foldl joinPath ""

/-- Python `path.find('"]', i)` specialised to a two-character needle:
split the list at the first occurrence of the adjacent pair `[a, b]`,
returning the characters before the pair and the characters after it. -/
def splitAtPair (a b : Char) : List Char → Option (List Char × List Char)
  | [] => none
  | c :: rest =>
    match rest with
    | [] => none
    | d :: rest' =>
      if c = a ∧ d = b then some ([], rest')
      else (splitAtPair a b (d :: rest')).map (fun p => (c :: p.1, p.2))

theorem splitAtPair_lengths (a b : Char) :
    ∀ (l x y : List Char), splitAtPair a b l = some (x, y) →
      x.length + 2 + y.length = l.length := by
  intro l
  induction l with
  | nil => intro x y h; simp [splitAtPair] at h
  | cons c rest ih =>
    intro x y h
    cases rest with
    | nil => simp [splitAtPair] at h
    | cons d rest' =>
      rw [splitAtPair] at h
      by_cases hcd : c = a ∧ d = b
      · rw [if_pos hcd] at h
        simp only [Option.some.injEq, Prod.mk.injEq] at h
        obtain ⟨hx, hy⟩ := h
        subst hx; subst hy
        simp only [List.length_nil, List.length_cons]
        omega
      · rw [if_neg hcd] at h
        cases hsp : splitAtPair a b (d :: rest') with
        | none => rw [hsp] at h; simp at h
        | some p =>
          rw [hsp] at h
          simp only [Option.map_some', Option.some.injEq, Prod.mk.injEq] at h
          obtain ⟨hx, hy⟩ := h
          subst hx; subst hy
          have := ih p.1 p.2 (by rw [hsp])
          simp only [List.length_cons] at this ⊢
          omega

/-- Skip a single leading dot (`if i < len(path) and path[i] == '.': i += 1`). -/
def skipDot : List Char → List Char
  | '.' :: rest => rest
  | l => l

theorem skipDot_length_le (l : List Char) : (skipDot l).length ≤ l.length := by
  unfold skipDot
  split
  · exact Nat.le_succ _
  · exact Nat.le_refl _

/-- `parse_path_components` (md-to-rbxlx.py lines 132-165), scanning the
character list from the left:
a position starting with `["` consumes through the first `"]` (taking the
slice strictly between them) and skips one trailing dot; with no closing
`"]` the single character `[` becomes its own component; a dot is skipped;
otherwise a component runs to the next dot (or the end of the string). -/
def parse_path_components_aux : List Char → List String
  | [] => []
  | '[' :: '"' :: rest =>
    match h : splitAtPair '"' ']' ('[' :: '"' :: rest) with
    | some (before, after) =>
      String.mk (before.drop 2) :: parse_path_components_aux (skipDot after)
    | none => "[" :: parse_path_components_aux ('"' :: rest)
  | c :: rest =>
    if hdot : c = '.' then parse_path_components_aux rest
    else
      String.mk ((c :: rest).takeWhile (fun d => d ≠ '.')) ::
        parse_path_components_aux ((c :: rest).dropWhile (fun d => d ≠ '.'))
  termination_by l => l.length
  decreasing_by
  all_goals simp only [List.length_cons]
  · have hlen := splitAtPair_lengths '"' ']' ('[' :: '"' :: rest) before after h
    have hskip := skipDot_length_le after
    simp only [List.length_cons] at hlen
    omega
  · omega
  · omega
  · have hstep : (c :: rest).dropWhile (fun d => d ≠ '.') =
        rest.dropWhile (fun d => d ≠ '.') := by
      rw [List.dropWhile_cons_of_pos]
      exact decide_eq_true hdot
    have hle : (rest.dropWhile (fun d => d ≠ '.')).length ≤ rest.length :=
      (List.dropWhile_suffix _).length_le
    rw [hstep]
    omega

/-- `parse_path_components` on a `String`. -/
def parse_path_components (path : String) : List String :=
  parse_path_components_aux path.data

/-! ## XML element model

The fragment of `xml.etree.ElementTree.Element` the programs use: a tag,
an attribute list, optional text, and the child elements in document order. -/

inductive Elem : Type where
  | mk : String → List (String × String) → Option String → List Elem → Elem

def Elem.tag : Elem → String | .mk t _ _ _ => t
def Elem.attrs : Elem → List (String × String) | .mk _ a _ _ => a
def Elem.text : Elem → Option String | .mk _ _ x _ => x
def Elem.children : Elem → List Elem | .mk _ _ _ c => c

/-- Python `elem.get(key)`. -/
def Elem.attr (e : Elem) (key : String) : Option String :=
  (e.attrs.find? (fun p => p.1 == key)).map Prod.snd

/-- Python `elem.get(key, default)`. -/
def Elem.attrD (e : Elem) (key default : String) : String :=
  (e.attr key).getD default

/-- Python `elem.find(tag)`: the first direct child with the given tag. -/
def Elem.findChild (e : Elem) (tag : String) : Option Elem :=
  e.children.find? (fun c => c.tag == tag)

theorem Elem.sizeOf_children_lt (e : Elem) : sizeOf e.children < sizeOf e := by
  cases e with
  | mk t a x c => simp [Elem.children]

/-- All descendant elements in document order (the matches of a
`.//tag`-style `findall`, before filtering by tag). -/
def descendantsList : List Elem → List Elem
  | [] => []
  | .mk t a x c :: rest => .mk t a x c :: (descendantsList c ++ descendantsList rest)

def Elem.descendants (e : Elem) : List Elem := descendantsList e.children

/-- Python `e.findall(".//t")`: all descendants with the given tag. -/
def findallDesc (e : Elem) (t : String) : List Elem :=
  e.descendants.filter (fun d => d.tag == t)

/-! ## Python string helpers -/

/-- Python f-string rendering of a possibly-`None` text: `None` renders
as the string `"None"`. -/
def pyStr : Option String → String
  | none => "None"
  | some s => s

/-- Python `s.lower()` (ASCII). -/
def pyLower (s : String) : String := String.mk (s.data.map Char.toLower)

/-- Python `s.strip()`. -/
def pyStrip (s : String) : String :=
  String.mk (((s.data.dropWhile Char.isWhitespace).reverse.dropWhile
    Char.isWhitespace).reverse)

/-- `"  " * indent_level`. -/
def pyIndent (n : Nat) : String := String.mk (List.replicate (2 * n) ' ')

/-- Python `prop.text if prop.text else default` (both `None` and the
empty string are falsy). -/
def textOr (e : Elem) (default : String) : String :=
  match e.text with
  | none => default
  | some t => if t == "" then default else t

/-- `next((child.text for child in prop if child.tag == t), default)`,
rendered as an f-string renders it (a present child with `None` text
renders as `"None"`). -/
def childTextD (prop : Elem) (t : String) (default : String) : String :=
  match prop.children.find? (fun c => c.tag == t) with
  | none => default
  | some c => pyStr c.text

/-! ## Property encoding (property_handlers.py `format_property_for_md`,
`extract_properties`) -/

/-- The CFrame component loop for one index (tags `V{i}` or `R{i}`,
default `"0"`); a present component child with `None` text later raises
inside `', '.join(components)`, modelled as `none`. -/
def cframeLoop (prop : Elem) : List Nat → Option (List String)
  | [] => some []
  | i :: rest =>
    match prop.children.find? (fun c =>
        c.tag == "V" ++ toString i || c.tag == "R" ++ toString i) with
    | none => (cframeLoop prop rest).map (fun cs => "0" :: cs)
    | some c =>
      match c.text with
      | none => none
      | some t => (cframeLoop prop rest).map (fun cs => t :: cs)

/-- The 12 CFrame components: `for i in range(12)`. -/
def cframeComponents (prop : Elem) : Option (List String) :=
  cframeLoop prop [0, 1, 2, 3, 4, 5, 6, 7, 8, 9, 10, 11]

/-- The `Faces`/`Axes` loop: for each face name, the first child with that
tag; a missing child counts as `"false"`; a present child with `None` text
raises at `value.lower()`, modelled as `none`. -/
def facesLoop (prop : Elem) : List String → Option (List String)
  | [] => some []
  | face :: rest =>
    match prop.children.find? (fun c => c.tag == face) with
    | none => facesLoop prop rest
    | some c =>
      match c.text with
      | none => none
      | some t =>
        if pyLower t == "true" then (facesLoop prop rest).map (fun fs => face :: fs)
        else facesLoop prop rest

def facesList (prop : Elem) : Option (List String) :=
  facesLoop prop ["Top", "Bottom", "Left", "Right", "Front", "Back"]

/-- The `ColorSequence` keypoint loop: `keypoint.find("Value")` returning
`None` raises when iterated, modelled as `none`. -/
def colorSeqLoop : List Elem → Option (List String)
  | [] => some []
  | kp :: rest =>
    match kp.findChild "Value" with
    | none => none
    | some v =>
      (colorSeqLoop rest).map (fun ks =>
        ("t:" ++ childTextD kp "Time" "0" ++ ",rgb(" ++
          childTextD v "R" "0" ++ "," ++ childTextD v "G" "0" ++ "," ++
          childTextD v "B" "0" ++ "),e:" ++ childTextD kp "Envelope" "0") :: ks)

mutual
/-- `format_property_for_md` (property_handlers.py lines 5-256): one
branch per property tag, producing the joined output lines.  `none`
models a raised Python exception (a `None` component reaching
`str.join`, `None.lower()`, or iterating a missing `find(...)` result);
the unsupported-type branch's `print` warning is I/O only and dropped. -/
def format_property_for_md (prop : Elem) (indent_level : Nat) : Option String :=
  let indent := pyIndent indent_level
  let prop_name := prop.attrD "name" ""
  if prop_name == "" then some ""
  else
    let line := fun (v : String) => indent ++ "- " ++ prop_name ++ ": " ++ v
    let prop_type := prop.tag
    if prop_type == "string" then some (line (textOr prop ""))
    else if prop_type == "bool" then some (line (textOr prop "false"))
    else if prop_type == "int" then some (line (textOr prop "0"))
    else if prop_type == "int64" then some (line (textOr prop "0"))
    else if prop_type == "float" || prop_type == "double" then
      some (line (textOr prop "0.0"))
    else if prop_type == "token" then some (line (textOr prop ""))
    else if prop_type == "Color3uint8" then
      some (line ("RGB(" ++ childTextD prop "R" "0" ++ ", " ++
        childTextD prop "G" "0" ++ ", " ++ childTextD prop "B" "0" ++ ")"))
    else if prop_type == "Vector3" then
      some (line ("(" ++ childTextD prop "X" "0" ++ ", " ++
        childTextD prop "Y" "0" ++ ", " ++ childTextD prop "Z" "0" ++ ")"))
    else if prop_type == "Vector2" then
      some (line ("(" ++ childTextD prop "X" "0" ++ ", " ++
        childTextD prop "Y" "0" ++ ")"))
    else if prop_type == "CFrame" || prop_type == "CoordinateFrame" then
      (cframeComponents prop).map (fun cs =>
        line ("CFrame(" ++ String.intercalate ", " cs ++ ")"))
    else if prop_type == "OptionalCoordinateFrame" then
      if !prop.children.isEmpty then
        (cframeComponents prop).map (fun cs =>
          line ("CFrame(" ++ String.intercalate ", " cs ++ ")"))
      else some (line "nil")
    else if prop_type == "UDim" then
      some (line ("Scale: " ++ childTextD prop "S" "0" ++ ", Offset: " ++
        childTextD prop "O" "0"))
    else if prop_type == "UDim2" then
      some (line ("X(Scale: " ++ childTextD prop "XS" "0" ++ ", Offset: " ++
        childTextD prop "XO" "0" ++ "), Y(Scale: " ++ childTextD prop "YS" "0" ++
        ", Offset: " ++ childTextD prop "YO" "0" ++ ")"))
    else if prop_type == "BinaryString" || prop_type == "ProtectedString" then
      some (line "[Binary Data]")
    else if prop_type == "SharedString" then
      some (line ("SharedString(" ++ textOr prop "" ++ ")"))
    else if prop_type == "Content" then some (line (textOr prop ""))
    else if prop_type == "UniqueId" then some (line (textOr prop ""))
    else if prop_type == "SecurityCapabilities" then some (line (textOr prop "0"))
    else if prop_type == "Ref" || prop_type == "Reference" then
      some (line ("Ref(" ++ textOr prop "" ++ ")"))
    else if prop_type == "Enum" then some (line ("Enum(" ++ textOr prop "" ++ ")"))
    else if prop_type == "NumberSequence" then
      some (line ("NumberSequence(" ++
        String.intercalate "; " ((findallDesc prop "Keypoint").map (fun kp =>
          "t:" ++ childTextD kp "Time" "0" ++ ",v:" ++ childTextD kp "Value" "0" ++
          ",e:" ++ childTextD kp "Envelope" "0")) ++ ")"))
    else if prop_type == "ColorSequence" then
      (colorSeqLoop (findallDesc prop "Keypoint")).map
        (fun kps => line ("ColorSequence(" ++ String.intercalate "; " kps ++ ")"))
    else if prop_type == "PhysicalProperties" then
      some (line ("PhysicalProperties(Density: " ++ childTextD prop "Density" "0" ++
        ", Friction: " ++ childTextD prop "Friction" "0" ++
        ", Elasticity: " ++ childTextD prop "Elasticity" "0" ++ ")"))
    else if prop_type == "BrickColor" then
      some (line ("BrickColor(" ++ textOr prop "" ++ ")"))
    else if prop_type == "Color3" then
      some (line ("Color3(" ++ childTextD prop "R" "0" ++ ", " ++
        childTextD prop "G" "0" ++ ", " ++ childTextD prop "B" "0" ++ ")"))
    else if prop_type == "NumberRange" then
      some (line ("Range(" ++ childTextD prop "Min" "0" ++ " to " ++
        childTextD prop "Max" "0" ++ ")"))
    else if prop_type == "Faces" || prop_type == "Axes" then
      (facesList prop).map (fun fs => line ("[" ++ String.intercalate ", " fs ++ "]"))
    else if prop_type == "Ray" then
      match prop.findChild "Origin" with
      | none => none
      | some origin =>
        match prop.findChild "Direction" with
        | none => none
        | some direction =>
          some (line ("Ray(Origin: (" ++ childTextD origin "X" "0" ++ ", " ++
            childTextD origin "Y" "0" ++ ", " ++ childTextD origin "Z" "0" ++
            "), Direction: (" ++ childTextD direction "X" "0" ++ ", " ++
            childTextD direction "Y" "0" ++ ", " ++ childTextD direction "Z" "0" ++
            "))"))
    else if prop_type == "Font" then
      some (line ("Font(" ++ childTextD prop "Family" "" ++ ", " ++
        childTextD prop "Weight" "" ++ ", " ++ childTextD prop "Style" "" ++ ")"))
    else if prop_type == "Rect2D" then
      some (line ("Rect(" ++ childTextD prop "min_x" "0" ++ ", " ++
        childTextD prop "min_y" "0" ++ ", " ++ childTextD prop "max_x" "0" ++
        ", " ++ childTextD prop "max_y" "0" ++ ")"))
    else
      if prop.children.isEmpty && !(textOr prop "" == "") then
        some (indent ++ "- " ++ prop_name ++ ": " ++ textOr prop "" ++
          " [UNSUPPORTED TYPE: " ++ prop_type ++ "]")
      else
        (unsupportedChildLines prop.children indent indent_level).map (fun ls =>
          String.intercalate "\n"
            ((indent ++ "- " ++ prop_name ++ " [UNSUPPORTED TYPE: " ++
              prop_type ++ "]") :: ls))
  termination_by sizeOf prop
  decreasing_by exact Elem.sizeOf_children_lt prop

/-- The child loop of the unsupported-type fallback (property_handlers.py
lines 241-250). -/
def unsupportedChildLines (cs : List Elem) (indent : String) (indent_level : Nat) :
    Option (List String) :=
  match cs with
  | [] => some []
  | child :: rest =>
    if (child.attr "name").isNone then
      (unsupportedChildLines rest indent indent_level).map (fun ls =>
        (indent ++ "  - " ++ child.tag ++ ": " ++ (child.text.getD "")) :: ls)
    else
      match format_property_for_md child (indent_level + 1) with
      | none => none
      | some child_value =>
        (unsupportedChildLines rest indent indent_level).map (fun ls =>
          if child_value == "" then ls else child_value.splitOn "\n" ++ ls)
  termination_by sizeOf cs
  decreasing_by
  all_goals (simp; try omega)
end

/-- The `AttributesSerialize`/`Tags` skip test of `extract_properties`:
Python `not prop.text or not prop.text.strip()`. -/
def blankText (x : Option String) : Bool :=
  match x with
  | none => true
  | some t => t == "" || pyStrip t == ""

/-- Stable ascending insertion by the `name` attribute; `sortByName` below
is extensionally Python's stable `sorted(..., key=lambda x: x.get("name", ""))`. -/
def insortByName (x : Elem) : List Elem → List Elem
  | [] => [x]
  | y :: l =>
    if x.attrD "name" "" ≤ y.attrD "name" "" then x :: y :: l
    else y :: insortByName x l

def sortByName (l : List Elem) : List Elem := l.foldr insortByName []

/-- `extract_properties` (property_handlers.py lines 258-291): sort the
`Properties` children by name, skip the reserved `Name` property and blank
`AttributesSerialize`/`Tags`, format the rest, and join the non-empty
results with newlines.  `none` models a raised exception propagating out
of `format_property_for_md`. -/
def extractPropsLoop : List Elem → Option (List String)
  | [] => some []
  | prop :: rest =>
    let prop_name := prop.attrD "name" ""
    if prop_name == "Name" then extractPropsLoop rest
    else if (prop_name == "AttributesSerialize" || prop_name == "Tags") &&
        blankText prop.text then extractPropsLoop rest
    else
      match format_property_for_md prop 0 with
      | none => none
      | some v =>
        (extractPropsLoop rest).map (fun acc => if v == "" then acc else v :: acc)

def extract_properties (item : Elem) : Option String :=
  match item.findChild "Properties" with
  | none => some ""
  | some properties_elem =>
    (extractPropsLoop (sortByName properties_elem.children)).map
      (fun rs => String.intercalate "\n" rs)

/-! ## Filtering (rbxlx-to-md.py `should_include_class`,
`should_include_path`, `is_path_under`) -/

/-- The settings keys consumed by the traversal core (`load_settings`
defaults: empty lists, all flags false). -/
structure Settings where
  path_whitelist : List String
  path_blacklist : List String
  class_whitelist : List String
  class_blacklist : List String
  use_path_whitelist : Bool
  use_path_blacklist : Bool
  use_class_whitelist : Bool
  use_class_blacklist : Bool
  exclude_no_id_items : Bool

/-- The wildcard branch of `is_path_under`: the code escapes dots,
turns each `*` into `.*` and anchors the regex at both ends, so a pattern
consisting of literal characters and `*` matches exactly like a glob.
(Other regex metacharacters in a pattern are outside the modelled scope.) -/
def globMatch : List Char → List Char → Bool
  | [], path => path.isEmpty
  | '*' :: pr, path => path.tails.any (fun suf => globMatch pr suf)
  | c :: pr, path =>
    match path with
    | [] => false
    | d :: pd => c == d && globMatch pr pd

/-- `is_path_under` (rbxlx-to-md.py lines 85-96). -/
def is_path_under (path ancestor_path : String) : Bool :=
  if ancestor_path.data.contains '*' then
    globMatch ancestor_path.data path.data
  else
    path == ancestor_path || (ancestor_path ++ ".").data.isPrefixOf path.data

/-- The `game.` prefix stripping applied to configured patterns. -/
def stripGame (p : String) : String :=
  if "game.".data.isPrefixOf p.data then String.mk (p.data.drop 5) else p

/-- `should_include_path` (rbxlx-to-md.py lines 98-122). -/
def should_include_path (path : String) (s : Settings) : Bool :=
  if s.use_path_whitelist && !s.path_whitelist.isEmpty &&
      !(s.path_whitelist.any (fun wp => is_path_under path (stripGame wp))) then
    false
  else if s.use_path_blacklist && !s.path_blacklist.isEmpty &&
      s.path_blacklist.any (fun bp => is_path_under path (stripGame bp)) then
    false
  else true

/-- `should_include_class` (rbxlx-to-md.py lines 124-136). -/
def should_include_class (class_name : String) (s : Settings) : Bool :=
  if s.use_class_whitelist && !s.class_whitelist.isEmpty &&
      !(s.class_whitelist.contains class_name) then false
  else if s.use_class_blacklist && !s.class_blacklist.isEmpty &&
      s.class_blacklist.contains class_name then false
  else true

/-! ## Tree walker (rbxlx-to-md.py `get_item_path`, `process_xml`) -/

/-- The `Name` lookup of `get_item_path` (lines 209-217): the first child
of the `Properties` element with tag `string` and name attribute `Name`;
a missing property, missing text or empty text defaults to `"Unnamed"`. -/
def itemName (item : Elem) : String :=
  match item.findChild "Properties" with
  | none => "Unnamed"
  | some properties_elem =>
    match properties_elem.children.find? (fun p =>
        p.tag == "string" && p.attr "name" == some "Name") with
    | none => "Unnamed"
    | some p =>
      match p.text with
      | none => "Unnamed"
      | some t => if t == "" then "Unnamed" else t

/-- The `UniqueId` lookup of `get_item_path` (lines 219-225), defaulting
to `"NoId"`. -/
def itemUniqueId (item : Elem) : String :=
  match item.findChild "Properties" with
  | none => "NoId"
  | some properties_elem =>
    match properties_elem.children.find? (fun p =>
        p.tag == "UniqueId" && p.attr "name" == some "UniqueId") with
    | none => "NoId"
    | some p =>
      match p.text with
      | none => "NoId"
      | some t => if t == "" then "NoId" else t

/-- One emitted record: the tuple
`(current_path, unique_id, class_name, properties)`. -/
structure PathRec where
  path : String
  uid : String
  cls : String
  props : String
deriving DecidableEq, Repr

mutual
/-- `get_item_path` (rbxlx-to-md.py lines 183-273): the recursive tree
walker, with the mutable `processed_ids` set passed in and returned
explicitly.  The per-child `try/except` never fires in the model (all
modelled child operations are total); the `try/except` around
`extract_properties` turns a raised exception into an error text. -/
def get_item_path (item : Elem) (parent_path : String) (ids : List String)
    (s : Settings) : List PathRec × List String :=
  let class_name := item.attrD "class" "Unknown"
  if !(should_include_class class_name s) then
    walkChildrenItems item.children parent_path ids s
  else
    let name := itemName item
    let unique_id := itemUniqueId item
    if ids.contains unique_id then ([], ids)
    else if s.exclude_no_id_items && unique_id == "NoId" then ([], ids)
    else
      let properties :=
        match extract_properties item with
        | some p => p
        | none => "[Error extracting properties]"
      let ids' := unique_id :: ids
      let current_path := joinPath parent_path name
      let recs : List PathRec :=
        if should_include_path current_path s then
          [⟨current_path, unique_id, class_name, properties⟩] else []
      let child := walkChildrenItems item.children current_path ids' s
      (recs ++ child.1, child.2)
  termination_by sizeOf item
  decreasing_by
  all_goals exact Elem.sizeOf_children_lt item

/-- The `for child in item: if child.tag == "Item"` recursion of
`get_item_path` (lines 261-268). -/
def walkChildrenItems (cs : List Elem) (parent_path : String)
    (ids : List String) (s : Settings) : List PathRec × List String :=
  match cs with
  | [] => ([], ids)
  | c :: rest =>
    if c.tag == "Item" then
      let p1 := get_item_path c parent_path ids s
      let p2 := walkChildrenItems rest parent_path p1.2 s
      (p1.1 ++ p2.1, p2.2)
    else walkChildrenItems rest parent_path ids s
  termination_by sizeOf cs
  decreasing_by
  all_goals (simp; try omega)
end

/-- The main loop of `process_xml` (rbxlx-to-md.py lines 142-160): fold
`get_item_path` with empty parent path over a list of items, threading the
shared `processed_ids` set and concatenating the emitted records. -/
def processItems (items : List Elem) (ids : List String) (s : Settings) :
    List PathRec × List String :=
  match items with
  | [] => ([], ids)
  | it :: rest =>
    let p1 := get_item_path it "" ids s
    let p2 := processItems rest p1.2 s
    (p1.1 ++ p2.1, p2.2)

/-- `process_xml` restricted to the record sequence it collects
(`all_paths`); the items iterated are `root.findall(".//Item")`, and the
final grouping by leading path component does not alter the records. -/
def process_xml (root : Elem) (s : Settings) : List PathRec :=
  (processItems (findallDesc root "Item") [] s).1

/-- **C1** (code bug).  The claim states that splitting the joined path of
`["Workspace", "Spawn Point"]` reproduces the two segments.  The encoder
does produce the path text `Workspace["Spawn Point"]`, but
`parse_path_components` recognises a `["` quote only at the start of a
component scan, and its unquoted scan runs to the next *dot*; since the
join inserts no dot before a bracket-quoted segment, the whole path comes
back as a single component instead of the two original names. -/
theorem c1_path_roundtrip_failure :
    encodePath ["Workspace", "Spawn Point"] = "Workspace[\"Spawn Point\"]" ∧
    parse_path_components "Workspace[\"Spawn Point\"]" =
      ["Workspace[\"Spawn Point\"]"] ∧
    parse_path_components (encodePath ["Workspace", "Spawn Point"]) ≠
      ["Workspace", "Spawn Point"] := by
  have h1 : encodePath ["Workspace", "Spawn Point"] =
      "Workspace[\"Spawn Point\"]" := by decide
  have h2 : parse_path_components "Workspace[\"Spawn Point\"]" =
      ["Workspace[\"Spawn Point\"]"] := by
    simp [parse_path_components, parse_path_components_aux, splitAtPair, skipDot]
  refine ⟨h1, h2, ?_⟩
  rw [h1, h2]
  decide

/-! ## Concrete scenario data -/

/-- A `Properties` element carrying a `Name` and a `UniqueId` property. -/
def mkProps (name uid : String) : Elem :=
  .mk "Properties" [] none
    [.mk "string" [("name", "Name")] (some name) [],
     .mk "UniqueId" [("name", "UniqueId")] (some uid) []]

/-- A convenience constructor for concrete test items. -/
def mkItem (cls name uid : String) (children : List Elem) : Elem :=
  .mk "Item" [("class", cls)] none (mkProps name uid :: children)

/-- The `load_settings` defaults: no filtering at all. -/
def noFilter : Settings := ⟨[], [], [], [], false, false, false, false, false⟩

/-- Default settings with `exclude_no_id_items` enabled. -/
def excludeNoId : Settings := ⟨[], [], [], [], false, false, false, false, true⟩

/-- Default settings with class blacklist `["Script"]` enabled. -/
def scriptBlacklist : Settings :=
  ⟨[], [], [], ["Script"], false, false, false, true, false⟩

/-- An item with a name but no `UniqueId` property, whose child item has a
real id. -/
def noIdParent : Elem :=
  .mk "Item" [("class", "Model")] none
    [.mk "Properties" [] none [.mk "string" [("name", "Name")] (some "GroupA") []],
     mkItem "Part" "ChildB" "B1" []]

def c3Root : Elem := .mk "roblox" [] none [noIdParent]

/-- Scenario C tree: `Workspace.Baseplate` with a `Script`-classed child
whose own child is a `Part`. -/
def c5Tree : Elem :=
  mkItem "Model" "Workspace" "U1"
    [mkItem "Part" "Baseplate" "U2"
      [mkItem "Script" "Cleanup" "U3"
        [mkItem "Part" "GChild" "U4" []]]]

/-- A plain item used as a dedup probe. -/
def samplePartItem : Elem := mkItem "Part" "Baseplate" "U2" []

/-! ## Traversal invariants -/

theorem contains_iff_mem (l : List String) (x : String) :
    l.contains x = true ↔ x ∈ l := by
  rw [List.contains_iff_exists_mem_beq]
  constructor
  · rintro ⟨b, hb, he⟩
    rw [show x = b from beq_iff_eq.mp he]
    exact hb
  · intro h
    exact ⟨x, h, beq_iff_eq.mpr rfl⟩

/-- The invariant carried by a single walker call: the returned id set
extends the incoming one; the emitted records carry pairwise-distinct ids,
all of them newly recorded; and, under `exclude_no_id_items`, none of the
emitted ids is `"NoId"`. -/
def WalkInv (s : Settings) (ids : List String)
    (out : List PathRec × List String) : Prop :=
  (∀ x, x ∈ ids → x ∈ out.2) ∧
  (out.1.map PathRec.uid).Nodup ∧
  (∀ r ∈ out.1, r.uid ∉ ids ∧ r.uid ∈ out.2) ∧
  (s.exclude_no_id_items = true → ∀ r ∈ out.1, r.uid ≠ "NoId")

theorem walkInv_nil (s : Settings) (ids : List String) :
    WalkInv s ids ([], ids) :=
  ⟨fun _ h => h, by simp, by simp, by simp⟩

theorem WalkInv.seq {s : Settings} {ids : List String}
    {p1 p2 : List PathRec × List String}
    (h1 : WalkInv s ids p1) (h2 : WalkInv s p1.2 p2) :
    WalkInv s ids (p1.1 ++ p2.1, p2.2) := by
  obtain ⟨m1, n1, f1, e1⟩ := h1
  obtain ⟨m2, n2, f2, e2⟩ := h2
  refine ⟨fun x hx => m2 x (m1 x hx), ?_, ?_, ?_⟩
  · simp only [List.map_append]
    refine List.Nodup.append n1 n2 ?_
    intro u hu1 hu2
    obtain ⟨r1, hr1, hru1⟩ := List.mem_map.mp hu1
    obtain ⟨r2, hr2, hru2⟩ := List.mem_map.mp hu2
    apply (f2 r2 hr2).1
    rw [hru2, ← hru1]
    exact (f1 r1 hr1).2
  · intro r hr
    rcases List.mem_append.mp hr with h | h
    · exact ⟨(f1 r h).1, m2 _ ((f1 r h).2)⟩
    · exact ⟨fun hmem => (f2 r h).1 (m1 _ hmem), (f2 r h).2⟩
  · intro hex r hr
    rcases List.mem_append.mp hr with h | h
    · exact e1 hex r h
    · exact e2 hex r h

/-- Both walker functions establish `WalkInv`, by the functional induction
of the mutual definition. -/
theorem walker_inv :
    (∀ (item : Elem) (pp : String) (ids : List String) (s : Settings),
      WalkInv s ids (get_item_path item pp ids s)) ∧
    (∀ (cs : List Elem) (pp : String) (ids : List String) (s : Settings),
      WalkInv s ids (walkChildrenItems cs pp ids s)) := by
  refine get_item_path.mutual_induct
    (fun item pp ids s => WalkInv s ids (get_item_path item pp ids s))
    (fun cs pp ids s => WalkInv s ids (walkChildrenItems cs pp ids s))
    ?_ ?_ ?_ ?_ ?_ ?_ ?_
  · intro item pp ids s cn hcls ih
    rw [get_item_path.eq_def]
    simp only [hcls, if_true]
    exact ih
  · intro item pp ids s cn hcls uid hdup
    rw [get_item_path.eq_def]
    simp only [if_neg hcls, hdup, if_true]
    exact walkInv_nil s ids
  · intro item pp ids s cn hcls uid hdup hnoid
    rw [get_item_path.eq_def]
    simp only [if_neg hcls, if_neg hdup, hnoid, if_true]
    exact walkInv_nil s ids
  · intro item pp ids s cn hcls nm uid hdup hnoid ids2 cp ih
    rw [get_item_path.eq_def]
    simp only [if_neg hcls, if_neg hdup, if_neg hnoid]
    refine @WalkInv.seq _ _ (if should_include_path
        (joinPath pp (itemName item)) s then
        [⟨joinPath pp (itemName item), itemUniqueId item,
          item.attrD "class" "Unknown",
          match extract_properties item with
          | some p => p
          | none => "[Error extracting properties]"⟩] else [],
        itemUniqueId item :: ids) _ ?_ ih
    refine ⟨fun x hx => List.mem_cons_of_mem _ hx, ?_, ?_, ?_⟩
    · by_cases hp : should_include_path (joinPath pp (itemName item)) s <;>
        simp [hp]
    · intro r hr
      by_cases hp : should_include_path (joinPath pp (itemName item)) s
      · rw [if_pos hp] at hr
        simp only [List.mem_singleton] at hr
        subst hr
        refine ⟨fun hmem => hdup ((contains_iff_mem ids _).mpr hmem), ?_⟩
        exact List.mem_cons_self _ _
      · rw [if_neg hp] at hr
        simp at hr
    · intro hex r hr
      by_cases hp : should_include_path (joinPath pp (itemName item)) s
      · rw [if_pos hp] at hr
        simp only [List.mem_singleton] at hr
        subst hr
        simp only [hex, Bool.true_and] at hnoid
        simpa using hnoid
      · rw [if_neg hp] at hr
        simp at hr
  · intro pp ids s
    rw [walkChildrenItems.eq_def]
    exact walkInv_nil s ids
  · intro pp ids s kp rest htag p1 ih1 ih2
    rw [walkChildrenItems.eq_def]
    simp only [htag, if_true]
    exact WalkInv.seq ih1 ih2
  · intro pp ids s kp rest htag ih
    rw [walkChildrenItems.eq_def]
    simp only [if_neg htag]
    exact ih

/-- `WalkInv` lifts along the `process_xml` item loop. -/
theorem processItems_inv (items : List Elem) :
    ∀ (ids : List String) (s : Settings), WalkInv s ids (processItems items ids s) := by
  induction items with
  | nil =>
    intro ids s
    simp only [processItems]
    exact walkInv_nil s ids
  | cons it rest ih =>
    intro ids s
    simp only [processItems]
    exact WalkInv.seq (walker_inv.1 it "" ids s) (ih _ s)

/-- A node whose class passes the filter and whose id was already
processed yields nothing and leaves the state unchanged. -/
theorem get_item_path_dedup_eq (item : Elem) (pp : String) (ids : List String)
    (s : Settings)
    (hcls : should_include_class (item.attrD "class" "Unknown") s = true)
    (hdup : ids.contains (itemUniqueId item) = true) :
    get_item_path item pp ids s = ([], ids) := by
  have hmem : itemUniqueId item ∈ ids := (contains_iff_mem _ _).mp hdup
  rw [get_item_path.eq_def]
  simp [hcls, hmem]

/-- With `exclude_no_id_items` enabled, a class-included node whose id
defaults to `"NoId"` yields nothing and leaves the state unchanged. -/
theorem get_item_path_noid_eq (item : Elem) (pp : String) (ids : List String)
    (s : Settings)
    (hcls : should_include_class (item.attrD "class" "Unknown") s = true)
    (hexc : s.exclude_no_id_items = true)
    (hnoid : itemUniqueId item = "NoId") :
    get_item_path item pp ids s = ([], ids) := by
  by_cases hdup : ids.contains (itemUniqueId item) = true
  · exact get_item_path_dedup_eq item pp ids s hcls hdup
  · rw [get_item_path.eq_def]
    simp [hcls, hnoid, hexc, hdup]

/-! ## Evaluation helpers for concrete scenarios -/

theorem intercalate_singleton (x : String) : "\n".intercalate [x] = x := rfl

theorem uid_line_ne_empty (t : String) : (("- UniqueId: " ++ t) == "") = false := by
  rw [beq_eq_false_iff_ne]
  intro h
  have hlen := congrArg String.length h
  have h12 : ("- UniqueId: " : String).length = 12 := rfl
  have h0 : ("" : String).length = 0 := rfl
  rw [String.length_append, h12, h0] at hlen
  omega

theorem mkItem_attrD_class (cls name uid : String) (cs : List Elem) :
    (mkItem cls name uid cs).attrD "class" "Unknown" = cls := by
  simp [mkItem, Elem.attrD, Elem.attr, Elem.attrs]

theorem mkItem_tag (cls name uid : String) (cs : List Elem) :
    (mkItem cls name uid cs).tag = "Item" := rfl

theorem mkItem_children (cls name uid : String) (cs : List Elem) :
    (mkItem cls name uid cs).children = mkProps name uid :: cs := rfl

theorem itemName_mkItem (cls name uid : String) (cs : List Elem) :
    itemName (mkItem cls name uid cs) = if name == "" then "Unnamed" else name := by
  simp [itemName, mkItem, mkProps, Elem.findChild, Elem.children, Elem.tag,
    Elem.attr, Elem.attrs, Elem.text]

theorem itemUniqueId_mkItem (cls name uid : String) (cs : List Elem) :
    itemUniqueId (mkItem cls name uid cs) = if uid == "" then "NoId" else uid := by
  simp [itemUniqueId, mkItem, mkProps, Elem.findChild, Elem.children, Elem.tag,
    Elem.attr, Elem.attrs, Elem.text]

theorem extract_mkItem (cls name uid : String) (cs : List Elem) :
    extract_properties (mkItem cls name uid cs) =
      some ("- UniqueId: " ++ (if uid == "" then "" else uid)) := by
  simp [extract_properties, mkItem, mkProps, Elem.findChild, Elem.children,
    Elem.tag, Elem.attr, Elem.attrs, Elem.text, sortByName, insortByName,
    Elem.attrD, extractPropsLoop, format_property_for_md, textOr, pyIndent,
    blankText, uid_line_ne_empty, intercalate_singleton]

theorem walkChildren_skip_props (name uid : String) (cs : List Elem)
    (pp : String) (ids : List String) (s : Settings) :
    walkChildrenItems (mkProps name uid :: cs) pp ids s =
      walkChildrenItems cs pp ids s := by
  rw [walkChildrenItems.eq_def]
  simp [mkProps, Elem.tag]

/-- Unfolding of the walker at a class-included, fresh, not-`NoId`-blocked
`mkItem` node: one record (path-filter permitting) plus the child walk. -/
theorem get_item_path_mkItem (cls name uid : String) (cs : List Elem)
    (pp : String) (ids : List String) (s : Settings)
    (hcls : should_include_class cls s = true)
    (hname : (name == "") = false) (huid : (uid == "") = false)
    (hdup : ids.contains uid = false)
    (hnoid : (s.exclude_no_id_items && (uid == "NoId")) = false) :
    get_item_path (mkItem cls name uid cs) pp ids s =
      ((if should_include_path (joinPath pp name) s then
          [⟨joinPath pp name, uid, cls, "- UniqueId: " ++ uid⟩] else []) ++
        (walkChildrenItems cs (joinPath pp name) (uid :: ids) s).1,
       (walkChildrenItems cs (joinPath pp name) (uid :: ids) s).2) := by
  have hdup2 : uid ∉ ids := by
    intro hm
    have hc := (contains_iff_mem ids uid).mpr hm
    rw [hdup] at hc
    exact Bool.noConfusion hc
  rw [get_item_path.eq_def]
  simp [mkItem_attrD_class, hcls, itemName_mkItem, itemUniqueId_mkItem,
    extract_mkItem, hname, huid, hdup, hdup2, hnoid, mkItem_children,
    walkChildren_skip_props]

/-- Unfolding of the walker at a class-excluded node: children are walked
with the unchanged parent path. -/
theorem get_item_path_class_excluded (item : Elem) (pp : String)
    (ids : List String) (s : Settings)
    (h : should_include_class (item.attrD "class" "Unknown") s = false) :
    get_item_path item pp ids s = walkChildrenItems item.children pp ids s := by
  rw [get_item_path.eq_def]
  simp [h]

theorem walkChildren_nil (pp : String) (ids : List String) (s : Settings) :
    walkChildrenItems [] pp ids s = ([], ids) := by
  rw [walkChildrenItems.eq_def]

theorem walkChildren_cons_item (c : Elem) (rest : List Elem) (pp : String)
    (ids : List String) (s : Settings) (h : c.tag = "Item") :
    walkChildrenItems (c :: rest) pp ids s =
      ((get_item_path c pp ids s).1 ++
        (walkChildrenItems rest pp (get_item_path c pp ids s).2 s).1,
       (walkChildrenItems rest pp (get_item_path c pp ids s).2 s).2) := by
  rw [walkChildrenItems.eq_def]
  simp [h]

/-! ## Stable sort / filter commutation (for C6) -/

theorem mem_insortByName (x z : Elem) :
    ∀ l : List Elem, z ∈ insortByName x l ↔ z = x ∨ z ∈ l := by
  intro l
  induction l with
  | nil => simp [insortByName]
  | cons y m ih =>
    rw [insortByName]
    by_cases hxy : x.attrD "name" "" ≤ y.attrD "name" ""
    · rw [if_pos hxy]
      simp only [List.mem_cons]
    · rw [if_neg hxy]
      simp only [List.mem_cons, ih]
      tauto

theorem insort_all_le (x : Elem) (l : List Elem)
    (h : ∀ z ∈ l, x.attrD "name" "" ≤ z.attrD "name" "") :
    insortByName x l = x :: l := by
  cases l with
  | nil => rfl
  | cons y m =>
    rw [insortByName, if_pos (h y (List.mem_cons_self y m))]

theorem insort_pairwise (x : Elem) (l : List Elem)
    (hl : l.Pairwise (fun a b => a.attrD "name" "" ≤ b.attrD "name" "")) :
    (insortByName x l).Pairwise
      (fun a b => a.attrD "name" "" ≤ b.attrD "name" "") := by
  induction l with
  | nil => simp [insortByName]
  | cons y m ih =>
    rcases List.pairwise_cons.mp hl with ⟨hy, hm⟩
    rw [insortByName]
    by_cases hxy : x.attrD "name" "" ≤ y.attrD "name" ""
    · rw [if_pos hxy]
      refine List.pairwise_cons.mpr ⟨?_, hl⟩
      intro z hz
      rcases List.mem_cons.mp hz with hz | hz
      · rw [hz]; exact hxy
      · exact le_trans hxy (hy z hz)
    · rw [if_neg hxy]
      have hyx : y.attrD "name" "" ≤ x.attrD "name" "" := le_of_not_le hxy
      refine List.pairwise_cons.mpr ⟨?_, ih hm⟩
      intro z hz
      rcases (mem_insortByName x z m).mp hz with hz | hz
      · rw [hz]; exact hyx
      · exact hy z hz

theorem sortByName_pairwise (l : List Elem) :
    (sortByName l).Pairwise (fun a b => a.attrD "name" "" ≤ b.attrD "name" "") := by
  induction l with
  | nil => simp [sortByName]
  | cons p m ih => exact insort_pairwise p (sortByName m) ih

theorem filter_insort_pos (q : Elem → Bool) (x : Elem) (hq : q x = true) :
    ∀ l : List Elem,
      l.Pairwise (fun a b => a.attrD "name" "" ≤ b.attrD "name" "") →
      (insortByName x l).filter q = insortByName x (l.filter q) := by
  intro l
  induction l with
  | nil => intro _; simp [insortByName, hq]
  | cons y m ih =>
    intro hl
    rcases List.pairwise_cons.mp hl with ⟨hy, hm⟩
    rw [insortByName]
    by_cases hxy : x.attrD "name" "" ≤ y.attrD "name" ""
    · rw [if_pos hxy, List.filter_cons, List.filter_cons, hq]
      by_cases hqy : q y = true
      · simp only [hqy, if_true]
        rw [insortByName, if_pos hxy]
      · simp only [hqy, Bool.false_eq_true, if_false, if_true]
        rw [insort_all_le]
        intro z hz
        rcases List.mem_filter.mp hz with ⟨hzm, _⟩
        exact le_trans hxy (hy z hzm)
    · rw [if_neg hxy, List.filter_cons, List.filter_cons]
      by_cases hqy : q y = true
      · simp only [hqy, if_true]
        rw [ih hm]
        rw [insortByName, if_neg hxy]
      · simp only [hqy, Bool.false_eq_true, if_false]
        exact ih hm

theorem filter_insort_neg (q : Elem → Bool) (x : Elem) (hq : q x = false) :
    ∀ l : List Elem, (insortByName x l).filter q = l.filter q := by
  intro l
  induction l with
  | nil => simp [insortByName, hq]
  | cons y m ih =>
    rw [insortByName]
    by_cases hxy : x.attrD "name" "" ≤ y.attrD "name" ""
    · rw [if_pos hxy, List.filter_cons, hq]
      simp
    · rw [if_neg hxy, List.filter_cons, List.filter_cons, ih]

/-- A stable sort commutes with filtering. -/
theorem sort_filter_comm (q : Elem → Bool) :
    ∀ l : List Elem, sortByName (l.filter q) = (sortByName l).filter q := by
  intro l
  induction l with
  | nil => rfl
  | cons p m ih =>
    rw [List.filter_cons]
    by_cases hq : q p = true
    · simp only [hq, if_true]
      have h1 : sortByName (p :: m.filter q) =
          insortByName p (sortByName (m.filter q)) := rfl
      have h2 : sortByName (p :: m) = insortByName p (sortByName m) := rfl
      rw [h1, h2, ih, filter_insort_pos q p hq (sortByName m) (sortByName_pairwise m)]
    · simp only [hq, Bool.false_eq_true, if_false]
      have h2 : sortByName (p :: m) = insortByName p (sortByName m) := rfl
      rw [h2, filter_insort_neg q p (Bool.eq_false_iff.mpr hq) (sortByName m), ih]

/-- `extractPropsLoop` ignores `Name`-named properties: filtering them out
first changes nothing. -/
theorem extractPropsLoop_filter_name :
    ∀ l : List Elem,
      extractPropsLoop (l.filter (fun p => !(p.attrD "name" "" == "Name"))) =
        extractPropsLoop l := by
  intro l
  induction l with
  | nil => rfl
  | cons p rest ih =>
    rw [List.filter_cons]
    by_cases hp : (p.attrD "name" "" == "Name") = true
    · simp only [hp, Bool.not_true, Bool.false_eq_true, if_false]
      rw [ih]
      conv_rhs => rw [extractPropsLoop]
      simp only [hp, if_true]
    · have hp2 : (!(p.attrD "name" "" == "Name")) = true := by
        simp only [Bool.not_eq_true']
        exact Bool.eq_false_iff.mpr (fun hc => hp hc)
      simp only [hp2, if_true]
      rw [extractPropsLoop, extractPropsLoop]
      simp only [hp, Bool.false_eq_true, if_false]
      by_cases hskip : ((p.attrD "name" "" == "AttributesSerialize" ||
          p.attrD "name" "" == "Tags") && blankText p.text) = true
      · simp only [hskip, if_true]
        exact ih
      · simp only [hskip, Bool.false_eq_true, if_false]
        cases hf : format_property_for_md p 0 with
        | none => rfl
        | some v => rw [ih]

/-! ## Claims C3, C4, C5, C6 -/

/-- **C3**: with `exclude_no_id_items` enabled, a node whose id defaults
to `"NoId"` contributes no record: globally, no emitted record carries the
id `"NoId"` (first conjunct), and the walker returns from such a node
immediately with the processed-id state untouched (second conjunct).  The
node's children are nonetheless traversed and judged, because
`process_xml` iterates `findall(".//Item")`, which visits every
descendant item separately: in the concrete tree, the `NoId` parent's
child with a real id still produces a record (third conjunct). -/
theorem c3_exclude_no_id_items :
    (∀ (root : Elem) (s : Settings), s.exclude_no_id_items = true →
      ∀ r ∈ process_xml root s, r.uid ≠ "NoId") ∧
    (∀ (item : Elem) (pp : String) (ids : List String) (s : Settings),
      s.exclude_no_id_items = true →
      should_include_class (item.attrD "class" "Unknown") s = true →
      itemUniqueId item = "NoId" →
      get_item_path item pp ids s = ([], ids)) ∧
    process_xml c3Root excludeNoId =
      [⟨"ChildB", "B1", "Part", "- UniqueId: B1"⟩] := by
  refine ⟨?_, ?_, ?_⟩
  · intro root s hexc r hr
    exact (processItems_inv (findallDesc root "Item") [] s).2.2.2 hexc r hr
  · intro item pp ids s hexc hcls hnoid
    exact get_item_path_noid_eq item pp ids s hcls hexc hnoid
  · have hitems : findallDesc c3Root "Item" =
        [noIdParent, mkItem "Part" "ChildB" "B1" []] := by
      simp [findallDesc, Elem.descendants, descendantsList, c3Root, noIdParent,
        mkItem, mkProps, Elem.tag, Elem.children]
    rw [process_xml, hitems]
    simp only [processItems]
    rw [get_item_path_noid_eq noIdParent "" [] excludeNoId (by decide) rfl
      (by decide)]
    rw [get_item_path_mkItem "Part" "ChildB" "B1" [] "" [] excludeNoId
      (by decide) (by decide) (by decide) (by decide) (by decide)]
    rw [show joinPath "" "ChildB" = "ChildB" by decide, walkChildren_nil]
    simp +decide [should_include_path, excludeNoId]

/-- Witness for C3: the hypotheses hold and the conclusion follows at a
concrete `NoId` item. -/
theorem c3_exclude_no_id_items_witness :
    excludeNoId.exclude_no_id_items = true ∧
    should_include_class (noIdParent.attrD "class" "Unknown") excludeNoId = true ∧
    itemUniqueId noIdParent = "NoId" ∧
    get_item_path noIdParent "Workspace" ["X"] excludeNoId = ([], ["X"]) :=
  ⟨rfl, by decide, by decide,
    c3_exclude_no_id_items.2.1 noIdParent "Workspace" ["X"] excludeNoId rfl
      (by decide) (by decide)⟩

/-- **C4**: identity-based deduplication: over a whole traversal the
emitted records carry pairwise-distinct identifiers — at most one record
per identifier value, whichever occurrence is reached first — and a
class-included node whose id is already in `processed_ids` produces
nothing and leaves the set unchanged (later occurrences emit nothing). -/
theorem c4_dedup_at_most_once :
    (∀ (root : Elem) (s : Settings),
      ((process_xml root s).map PathRec.uid).Nodup) ∧
    (∀ (item : Elem) (pp : String) (ids : List String) (s : Settings),
      should_include_class (item.attrD "class" "Unknown") s = true →
      ids.contains (itemUniqueId item) = true →
      get_item_path item pp ids s = ([], ids)) := by
  constructor
  · intro root s
    exact (processItems_inv (findallDesc root "Item") [] s).2.1
  · exact get_item_path_dedup_eq

/-- Witness for C4: a concrete already-processed item yields nothing. -/
theorem c4_dedup_at_most_once_witness :
    should_include_class (samplePartItem.attrD "class" "Unknown") noFilter = true ∧
    (["U2"] : List String).contains (itemUniqueId samplePartItem) = true ∧
    get_item_path samplePartItem "" ["U2"] noFilter = ([], ["U2"]) :=
  ⟨by decide, by decide,
    c4_dedup_at_most_once.2 samplePartItem "" ["U2"] noFilter (by decide)
      (by decide)⟩

/-- **C5**: a node excluded by the class filter contributes no path
segment of its own: the walker descends into its children with the *same*
parent path (first conjunct); and in the Scenario C tree with class
blacklist `["Script"]`, the non-`Script` grandchild reached through the
excluded `Script` child of `Workspace.Baseplate` is emitted with path
`Workspace.Baseplate.GChild` — the parent's accepted path, not one
including the excluded node (second conjunct). -/
theorem c5_class_excluded_transparent :
    (∀ (item : Elem) (pp : String) (ids : List String) (s : Settings),
      should_include_class (item.attrD "class" "Unknown") s = false →
      get_item_path item pp ids s = walkChildrenItems item.children pp ids s) ∧
    get_item_path c5Tree "" [] scriptBlacklist =
      ([⟨"Workspace", "U1", "Model", "- UniqueId: U1"⟩,
        ⟨"Workspace.Baseplate", "U2", "Part", "- UniqueId: U2"⟩,
        ⟨"Workspace.Baseplate.GChild", "U4", "Part", "- UniqueId: U4"⟩],
       ["U4", "U2", "U1"]) := by
  constructor
  · exact get_item_path_class_excluded
  · have h4 : get_item_path (mkItem "Part" "GChild" "U4" [])
        "Workspace.Baseplate" ["U2", "U1"] scriptBlacklist =
        ([⟨"Workspace.Baseplate.GChild", "U4", "Part", "- UniqueId: U4"⟩],
         ["U4", "U2", "U1"]) := by
      rw [get_item_path_mkItem "Part" "GChild" "U4" [] "Workspace.Baseplate"
        ["U2", "U1"] scriptBlacklist (by decide) (by decide) (by decide)
        (by decide) (by decide)]
      rw [walkChildrenItems.eq_def]
      simp +decide [should_include_path, scriptBlacklist, joinPath, format_name]
    have h3 : get_item_path (mkItem "Script" "Cleanup" "U3"
          [mkItem "Part" "GChild" "U4" []]) "Workspace.Baseplate"
          ["U2", "U1"] scriptBlacklist =
        ([⟨"Workspace.Baseplate.GChild", "U4", "Part", "- UniqueId: U4"⟩],
         ["U4", "U2", "U1"]) := by
      rw [get_item_path_class_excluded _ _ _ _
        (by rw [mkItem_attrD_class]; decide)]
      rw [mkItem_children, walkChildren_skip_props]
      rw [walkChildren_cons_item _ _ _ _ _ (mkItem_tag _ _ _ _)]
      rw [h4, walkChildren_nil]
      rfl
    have h2 : get_item_path (mkItem "Part" "Baseplate" "U2"
          [mkItem "Script" "Cleanup" "U3" [mkItem "Part" "GChild" "U4" []]])
          "Workspace" ["U1"] scriptBlacklist =
        ([⟨"Workspace.Baseplate", "U2", "Part", "- UniqueId: U2"⟩,
          ⟨"Workspace.Baseplate.GChild", "U4", "Part", "- UniqueId: U4"⟩],
         ["U4", "U2", "U1"]) := by
      rw [get_item_path_mkItem "Part" "Baseplate" "U2" _ "Workspace" ["U1"]
        scriptBlacklist (by decide) (by decide) (by decide) (by decide)
        (by decide)]
      rw [show joinPath "Workspace" "Baseplate" = "Workspace.Baseplate" by decide]
      rw [walkChildren_cons_item _ _ _ _ _ (mkItem_tag _ _ _ _)]
      rw [h3, walkChildren_nil]
      simp +decide [should_include_path, scriptBlacklist]
    rw [show c5Tree = mkItem "Model" "Workspace" "U1"
      [mkItem "Part" "Baseplate" "U2"
        [mkItem "Script" "Cleanup" "U3" [mkItem "Part" "GChild" "U4" []]]]
      from rfl]
    rw [get_item_path_mkItem "Model" "Workspace" "U1" _ "" []
      scriptBlacklist (by decide) (by decide) (by decide) (by decide)
      (by decide)]
    rw [show joinPath "" "Workspace" = "Workspace" by decide]
    rw [walkChildren_cons_item _ _ _ _ _ (mkItem_tag _ _ _ _)]
    rw [h2, walkChildren_nil]
    simp +decide [should_include_path, scriptBlacklist]

/-- Witness for C5 at a concrete class-excluded item. -/
theorem c5_class_excluded_transparent_witness :
    should_include_class ((mkItem "Script" "Cleanup" "U9" []).attrD "class"
      "Unknown") scriptBlacklist = false ∧
    get_item_path (mkItem "Script" "Cleanup" "U9" []) "Workspace.Baseplate"
        ["a"] scriptBlacklist =
      walkChildrenItems (mkItem "Script" "Cleanup" "U9" []).children
        "Workspace.Baseplate" ["a"] scriptBlacklist :=
  ⟨by decide,
    c5_class_excluded_transparent.1 (mkItem "Script" "Cleanup" "U9" [])
      "Workspace.Baseplate" ["a"] scriptBlacklist (by decide)⟩

/-- **C6** counterexample: `extract_properties` skips only the `"Name"`
property (`skip_properties = {"Name"}`); a `UniqueId` property is *not*
excluded and is emitted as an ordinary property line.  The concrete item
has exactly a `Name` and a `UniqueId` property, and its generic encoded
property list consists of the `UniqueId` line — refuting the claim that
the list excludes both `"Name"` and `"UniqueId"`. -/
theorem c6_counterexample_uniqueid_line :
    extract_properties samplePartItem = some "- UniqueId: U2" := by
  rw [show samplePartItem = mkItem "Part" "Baseplate" "U2" [] from rfl]
  rw [extract_mkItem]
  rfl

/-- **C6** (amended): the generic encoded property list excludes the
`"Name"` property — removing every `Name`-named property from the
`Properties` element leaves `extract_properties` unchanged — while a
`UniqueId` property is *included*, emitted as an ordinary property line
(the skip set of `extract_properties` is `{"Name"}` only). -/
theorem c6_amended_name_only_excluded :
    (∀ (itag : String) (iattrs : List (String × String)) (itext : Option String)
        (pattrs : List (String × String)) (ptext : Option String)
        (ps rest : List Elem),
      extract_properties (.mk itag iattrs itext (.mk "Properties" pattrs ptext
          (ps.filter (fun p => !(p.attrD "name" "" == "Name"))) :: rest)) =
        extract_properties (.mk itag iattrs itext
          (.mk "Properties" pattrs ptext ps :: rest))) ∧
    (∀ uid : String, (uid == "") = false →
      extract_properties (mkItem "Part" "X" uid []) =
        some ("- UniqueId: " ++ uid)) := by
  constructor
  · intro itag iattrs itext pattrs ptext ps rest
    simp only [extract_properties, Elem.findChild, Elem.children, Elem.tag,
      List.find?_cons_of_pos, beq_self_eq_true]
    rw [sort_filter_comm, extractPropsLoop_filter_name]
  · intro uid h
    rw [extract_mkItem]
    simp [h]

/-- Witness for the amended C6 at a concrete id. -/
theorem c6_amended_name_only_excluded_witness :
    (("UID7" : String) == "") = false ∧
    extract_properties (mkItem "Part" "X" "UID7" []) =
      some ("- UniqueId: " ++ "UID7") :=
  ⟨by decide, c6_amended_name_only_excluded.2 "UID7" (by decide)⟩

/-! ## Property decoding (property_handlers.py `parse_property_from_md`)

The decoder re-derives a type from the value text by ordered pattern
matching.  The anchored regular expressions of the source are embedded as
explicit consuming matchers on `List Char`; every adjacent token pair in
those patterns has disjoint character classes, so maximal munch is exact. -/

/-- The values `parse_property_from_md` produces: a string or a tuple of
strings (a Python `None` value is the `none` of the surrounding option). -/
inductive PyVal where
  | s (v : String)
  | tup (vs : List String)
deriving DecidableEq, Repr

/-- Python `str.isdigit` (ASCII digits). -/
def pyIsDigit (s : String) : Bool := !s.data.isEmpty && s.data.all Char.isDigit

def digitsToNat (ds : List Char) : Nat :=
  ds.foldl (fun acc c => acc * 10 + (c.toNat - 48)) 0

/-- `int(s)` on an optionally-signed digit string. -/
def pyInt (s : String) : Int :=
  match s.data with
  | '-' :: ds => - (Int.ofNat (digitsToNat ds))
  | ds => Int.ofNat (digitsToNat ds)

/-- Consume an exact literal prefix. -/
def matchLit : List Char → List Char → Option (List Char)
  | [], s => some s
  | _ :: _, [] => none
  | c :: cs, d :: ds => if c = d then matchLit cs ds else none

/-- Consume maximal whitespace (`\s*`). -/
def dropWs (s : List Char) : List Char := s.dropWhile Char.isWhitespace

/-- Consume maximal digits, at least one (`\d+`). -/
def matchDigits (s : List Char) : Option (List Char × List Char) :=
  let ds := s.takeWhile Char.isDigit
  if ds.isEmpty then none else some (ds, s.dropWhile Char.isDigit)

/-- The `\d+(\.\d+)?` part after the optional sign, with maximal munch;
`sign` is prepended to the matched characters. -/
def matchNumCore (s1 : List Char) (sign : List Char) :
    Option (List Char × List Char) :=
  match matchDigits s1 with
  | none => none
  | some (d1, s2) =>
    if s2.head? = some '.' then
      match matchDigits s2.tail with
      | none => some (sign ++ d1, s2)
      | some (d2, s4) => some (sign ++ d1 ++ '.' :: d2, s4)
    else some (sign ++ d1, s2)

/-- Consume `-?\d+(\.\d+)?` with maximal munch. -/
def matchNum (s : List Char) : Option (List Char × List Char) :=
  if s.head? = some '-' then matchNumCore s.tail ['-'] else matchNumCore s []

/-- `X(\s*,\s*X)*` for `n` elements with element matcher `one`, each
element preceded by `\s*`. -/
def matchElems (one : List Char → Option (List Char × List Char)) :
    Nat → List Char → Option (List String × List Char)
  | 0, s => some ([], s)
  | Nat.succ n, s =>
    match one (dropWs s) with
    | none => none
    | some (x, s1) =>
      if n = 0 then some ([String.mk x], s1)
      else
        match matchLit [','] (dropWs s1) with
        | none => none
        | some s2 =>
          (matchElems one n s2).map (fun p => (String.mk x :: p.1, p.2))

/-- The anchored tuple patterns `^\(\s*X(\s*,\s*X)*\s*\)$`. -/
def matchParenTuple (one : List Char → Option (List Char × List Char))
    (n : Nat) (s : List Char) : Option (List String) :=
  match matchLit ['('] s with
  | none => none
  | some s1 =>
    match matchElems one n s1 with
    | none => none
    | some (xs, s2) =>
      match matchLit [')'] (dropWs s2) with
      | none => none
      | some s3 => if s3.isEmpty then some xs else none

/-- `^RGB\s*\(\s*(\d+)\s*,\s*(\d+)\s*,\s*(\d+)\s*\)$`. -/
def matchRGB (s : List Char) : Option (List String) :=
  match matchLit ['R', 'G', 'B'] s with
  | none => none
  | some s1 => matchParenTuple matchDigits 3 (dropWs s1)

/-- `^-?\d+\.\d+$`. -/
def isFloatLit (s : List Char) : Bool :=
  let s1 := if s.head? = some '-' then s.tail else s
  match matchDigits s1 with
  | none => false
  | some (_, s2) =>
    if s2.head? = some '.' then
      match matchDigits s2.tail with
      | none => false
      | some (_, s4) => s4.isEmpty
    else false

/-- Python `pat in s` (substring containment). -/
def containsSubstr (pat : List Char) : List Char → Bool
  | [] => pat.isEmpty
  | c :: rest => pat.isPrefixOf (c :: rest) || containsSubstr pat rest

/-- `re.search(key ++ "\\s*(-?\\d+(?:\\.\\d+)?)", s)`: scan left to
right for the first position where the whole pattern matches, returning
the captured number. -/
def searchKeyNum (key : List Char) : List Char → Option String
  | [] => none
  | c :: rest =>
    match matchLit key (c :: rest) with
    | some s1 =>
      match matchNum (dropWs s1) with
      | some (x, _) => some (String.mk x)
      | none => searchKeyNum key rest
    | none => searchKeyNum key rest

/-- The greedy group of `Pat\((.*)\)`: everything before the last `)`.
`none` when no `)` exists (the regex fails to match). -/
def beforeLast (c : Char) (l : List Char) : Option (List Char) :=
  match l.reverse.dropWhile (fun d => d ≠ c) with
  | [] => none
  | _ :: restRev => some restRev.reverse

/-- Python `str.split(c)`. -/
def splitOnChar (c : Char) : List Char → List (List Char)
  | [] => [[]]
  | d :: rest =>
    if d = c then [] :: splitOnChar c rest
    else
      match splitOnChar c rest with
      | [] => [[d]]
      | g :: gs => (d :: g) :: gs

/-- Python `str.split(c, 1)` when `c` occurs (else `none`). -/
def splitOnceChar (c : Char) : List Char → Option (List Char × List Char)
  | [] => none
  | d :: rest =>
    if d = c then some ([], rest)
    else (splitOnceChar c rest).map (fun p => (d :: p.1, p.2))

/-- Python `s.strip()` at the character-list level. -/
def pyStripL (l : List Char) : List Char :=
  ((l.dropWhile Char.isWhitespace).reverse.dropWhile Char.isWhitespace).reverse

/-- The ordered type-inference chain of `parse_property_from_md`
(property_handlers.py lines 487-595), applied to the extracted value
text; returns `(prop_type, actual_value)`. -/
def infer_property (prop_value : String) : String × Option PyVal :=
  let v := prop_value.data
  if pyLower prop_value == "true" || pyLower prop_value == "false" then
    ("bool", some (.s (pyLower prop_value)))
  else if pyIsDigit prop_value ||
      (v.head? == some '-' && pyIsDigit (String.mk (v.drop 1))) then
    (if 2147483647 < (pyInt prop_value).natAbs then "int64" else "int",
     some (.s prop_value))
  else if isFloatLit v then ("float", some (.s prop_value))
  else if (matchRGB v).isSome then ("Color3uint8", (matchRGB v).map .tup)
  else if (matchParenTuple matchNum 3 v).isSome then
    ("Vector3", (matchParenTuple matchNum 3 v).map .tup)
  else if (matchParenTuple matchNum 2 v).isSome then
    ("Vector2", (matchParenTuple matchNum 2 v).map .tup)
  else if "CFrame(".data.isPrefixOf v then
    ("CFrame",
      match beforeLast ')' (v.drop 7) with
      | none => none
      | some inner =>
        let components := (splitOnChar ',' inner).map
          (fun comp => String.mk (pyStripL comp))
        if components.length = 12 then some (.tup components) else none)
  else if containsSubstr "Scale:".data v && containsSubstr "Offset:".data v then
    ("UDim",
      match searchKeyNum "Scale:".data v, searchKeyNum "Offset:".data v with
      | some sc, some off => some (.tup [sc, off])
      | _, _ => none)
  else if containsSubstr "[Binary Data]".data v then ("BinaryString", some (.s ""))
  else if "SharedString(".data.isPrefixOf v then
    ("SharedString", (beforeLast ')' (v.drop 13)).map (fun inn => .s (String.mk inn)))
  else if "Ref(".data.isPrefixOf v then
    ("Ref", (beforeLast ')' (v.drop 4)).map (fun inn => .s (String.mk inn)))
  else if "Enum(".data.isPrefixOf v then
    ("Enum", (beforeLast ')' (v.drop 5)).map (fun inn => .s (String.mk inn)))
  else if "BrickColor(".data.isPrefixOf v then
    ("BrickColor", (beforeLast ')' (v.drop 11)).map (fun inn => .s (String.mk inn)))
  else if "Color3(".data.isPrefixOf v then
    ("Color3",
      match beforeLast ')' (v.drop 7) with
      | none => none
      | some inner =>
        let components := (splitOnChar ',' inner).map
          (fun comp => String.mk (pyStripL comp))
        if components.length = 3 then some (.tup components) else none)
  else ("string", some (.s prop_value))

/-- `parse_property_from_md` (property_handlers.py lines 464-597): `none`
is Python's `None` return for lines that do not have the shape
`- Name: value`. -/
def parse_property_from_md (prop_line : String) :
    Option (String × String × Option PyVal) :=
  let stripped := pyStripL prop_line.data
  if !(stripped.head? == some '-') then none
  else
    match splitOnceChar ':' (stripped.drop 2) with
    | none => none
    | some (p1, p2) =>
      let prop_name := String.mk (pyStripL p1)
      let prop_value := String.mk (pyStripL p2)
      let r := infer_property prop_value
      some (r.1, prop_name, r.2)

/-! ## Numeric-literal support lemmas -/

/-- `\d+` as a full-string property (nonempty, all digits). -/
def allDigits (l : List Char) : Bool := !l.isEmpty && l.all Char.isDigit

/-- The unsigned part of `-?\d+(\.\d+)?` as a full-string property. -/
def isUnsignedNum (t : List Char) : Bool :=
  match splitOnceChar '.' t with
  | none => allDigits t
  | some (a, b) => allDigits a && allDigits b

/-- `-?\d+(\.\d+)?` as a full-string property. -/
def isNumLit (l : List Char) : Bool :=
  match l with
  | '-' :: t => isUnsignedNum t
  | t => isUnsignedNum t

theorem splitOnceChar_eq_some (c : Char) :
    ∀ l a b, splitOnceChar c l = some (a, b) → l = a ++ c :: b ∧ c ∉ a := by
  intro l
  induction l with
  | nil => intro a b h; simp [splitOnceChar] at h
  | cons d rest ih =>
    intro a b h
    rw [splitOnceChar] at h
    by_cases hdc : d = c
    · rw [if_pos hdc] at h
      simp only [Option.some.injEq, Prod.mk.injEq] at h
      obtain ⟨ha, hb⟩ := h
      subst ha; subst hb
      simp [hdc]
    · rw [if_neg hdc] at h
      cases hsp : splitOnceChar c rest with
      | none => rw [hsp] at h; simp at h
      | some p =>
        rw [hsp] at h
        simp only [Option.map_some', Option.some.injEq, Prod.mk.injEq] at h
        obtain ⟨ha, hb⟩ := h
        subst ha; subst hb
        obtain ⟨h1, h2⟩ := ih p.1 p.2 (by rw [hsp])
        constructor
        · rw [List.cons_append, ← h1]
        · simp only [List.mem_cons, not_or]
          exact ⟨fun hc => hdc hc.symm, h2⟩

theorem takeWhile_digits_append :
    ∀ (d r : List Char), (∀ z ∈ d, z.isDigit = true) →
    (∀ x, r.head? = some x → x.isDigit = false) →
    (d ++ r).takeWhile Char.isDigit = d ∧
      (d ++ r).dropWhile Char.isDigit = r := by
  intro d
  induction d with
  | nil =>
    intro r _ hr
    cases hrr : r with
    | nil => simp
    | cons x r2 =>
      have hx : x.isDigit = false := hr x (by rw [hrr]; rfl)
      subst hrr
      simp [List.takeWhile_cons, List.dropWhile_cons, hx]
  | cons e es ih =>
    intro r hall hr
    have he : e.isDigit = true := hall e (List.mem_cons_self e es)
    have ihr := ih r (fun z hz => hall z (List.mem_cons_of_mem e hz)) hr
    simp only [List.cons_append, List.takeWhile_cons_of_pos he,
      List.dropWhile_cons_of_pos he, ihr.1, ihr.2, and_self]

theorem matchDigits_append (d r : List Char) (hd : allDigits d = true)
    (hr : ∀ x, r.head? = some x → x.isDigit = false) :
    matchDigits (d ++ r) = some (d, r) := by
  simp only [allDigits, Bool.and_eq_true, Bool.not_eq_true',
    List.isEmpty_eq_false, List.all_eq_true] at hd
  obtain ⟨hne, hall⟩ := hd
  have htake := takeWhile_digits_append d r hall hr
  rw [matchDigits]
  simp only [htake.1, htake.2]
  rw [if_neg (by simpa using hne)]

theorem dropWs_cons_of_neg (c : Char) (l : List Char)
    (h : c.isWhitespace = false) : dropWs (c :: l) = c :: l := by
  simp [dropWs, List.dropWhile_cons, h]

theorem dropWs_space (l : List Char) : dropWs (' ' :: l) = dropWs l := by
  simp [dropWs, List.dropWhile_cons]

/-- The characters that can follow a number in the encoded templates. -/
def numBoundary (r : List Char) : Prop :=
  r = [] ∨ r.head? = some ',' ∨ r.head? = some ')'

theorem numBoundary_head (r : List Char) (h : numBoundary r) :
    ∀ x, r.head? = some x → x.isDigit = false ∧ x ≠ '.' := by
  intro x hx
  rcases h with h | h | h
  · subst h; simp at hx
  · rw [h, Option.some.injEq] at hx
    subst hx; exact ⟨by decide, by decide⟩
  · rw [h, Option.some.injEq] at hx
    subst hx; exact ⟨by decide, by decide⟩

theorem matchNumCore_append (u r : List Char) (hu : isUnsignedNum u = true)
    (hb : ∀ x, r.head? = some x → x.isDigit = false ∧ x ≠ '.')
    (sign : List Char) :
    matchNumCore (u ++ r) sign = some (sign ++ u, r) := by
  rw [isUnsignedNum] at hu
  unfold matchNumCore
  cases hsp : splitOnceChar '.' u with
  | none =>
    rw [hsp] at hu
    dsimp only at hu
    rw [matchDigits_append u r hu (fun x hx => (hb x hx).1)]
    dsimp only
    rw [if_neg (fun hh => (hb '.' hh).2 rfl)]
  | some p =>
    rw [hsp] at hu
    dsimp only at hu
    rw [Bool.and_eq_true] at hu
    obtain ⟨hua, hub⟩ := hu
    obtain ⟨hdecomp, _⟩ := splitOnceChar_eq_some '.' u p.1 p.2 hsp
    rw [hdecomp]
    have h1 : (p.1 ++ '.' :: p.2) ++ r = p.1 ++ ('.' :: (p.2 ++ r)) := by simp
    rw [h1]
    rw [matchDigits_append p.1 ('.' :: (p.2 ++ r)) hua ?hx]
    case hx =>
      intro x hx
      rw [show ('.' :: (p.2 ++ r)).head? = some '.' from rfl,
        Option.some.injEq] at hx
      subst hx; decide
    dsimp only
    rw [if_pos (show ('.' :: (p.2 ++ r)).head? = some '.' from rfl)]
    rw [show ('.' :: (p.2 ++ r)).tail = p.2 ++ r from rfl]
    rw [matchDigits_append p.2 r hub (fun x hx => (hb x hx).1)]
    dsimp only
    simp

theorem isUnsignedNum_of_isNumLit_cons (c : Char) (t : List Char)
    (hc : ¬ c = '-') (hx : isNumLit (c :: t) = true) :
    isUnsignedNum (c :: t) = true := by
  unfold isNumLit at hx
  split at hx
  · rename_i heq
    injection heq with h1 _
    exact absurd h1 hc
  · exact hx

theorem matchNum_append (x r : List Char) (hx : isNumLit x = true)
    (hr : numBoundary r) : matchNum (x ++ r) = some (x, r) := by
  have hb := numBoundary_head r hr
  cases x with
  | nil => exact absurd hx (by decide)
  | cons c t =>
    by_cases hc : c = '-'
    · subst hc
      have hu : isUnsignedNum t = true := hx
      rw [List.cons_append, matchNum,
        if_pos (show (('-' :: (t ++ r)).head? = some '-') from rfl)]
      rw [show ('-' :: (t ++ r)).tail = t ++ r from rfl]
      rw [matchNumCore_append t r hu hb ['-']]
      rfl
    · have hu := isUnsignedNum_of_isNumLit_cons c t hc hx
      rw [List.cons_append, matchNum, if_neg ?hne]
      case hne =>
        intro hh
        rw [show (c :: (t ++ r)).head? = some c from rfl,
          Option.some.injEq] at hh
        exact hc hh
      rw [show c :: (t ++ r) = (c :: t) ++ r from rfl]
      rw [matchNumCore_append (c :: t) r hu hb []]
      simp

theorem digit_not_ws (c : Char) (h : c.isDigit = true) :
    c.isWhitespace = false := by
  simp only [Char.isDigit, Bool.and_eq_true, decide_eq_true_eq] at h
  obtain ⟨h1, h2⟩ := h
  have hne : c ≠ ' ' ∧ c ≠ '\t' ∧ c ≠ '\r' ∧ c ≠ '\n' := by
    refine ⟨?_, ?_, ?_, ?_⟩ <;> (intro he; subst he; exact absurd h1 (by decide))
  simp only [Char.isWhitespace]
  rw [decide_eq_false hne.1, decide_eq_false hne.2.1,
    decide_eq_false hne.2.2.1, decide_eq_false hne.2.2.2]
  rfl

theorem isUnsignedNum_head (u : List Char) (hu : isUnsignedNum u = true) :
    ∃ c t, u = c :: t ∧ c.isDigit = true := by
  rw [isUnsignedNum] at hu
  cases hsp : splitOnceChar '.' u with
  | none =>
    rw [hsp] at hu
    dsimp only at hu
    simp only [allDigits, Bool.and_eq_true, Bool.not_eq_true',
      List.isEmpty_eq_false, List.all_eq_true] at hu
    obtain ⟨hne, hall⟩ := hu
    cases u with
    | nil => simp at hne
    | cons c t => exact ⟨c, t, rfl, hall c (List.mem_cons_self c t)⟩
  | some p =>
    rw [hsp] at hu
    dsimp only at hu
    rw [Bool.and_eq_true] at hu
    obtain ⟨hua, _⟩ := hu
    obtain ⟨hdecomp, _⟩ := splitOnceChar_eq_some '.' u p.1 p.2 hsp
    simp only [allDigits, Bool.and_eq_true, Bool.not_eq_true',
      List.isEmpty_eq_false, List.all_eq_true] at hua
    obtain ⟨hne, hall⟩ := hua
    cases hp1 : p.1 with
    | nil => rw [hp1] at hne; simp at hne
    | cons c t =>
      refine ⟨c, t ++ '.' :: p.2, ?_, ?_⟩
      · rw [hdecomp, hp1]; rfl
      · exact hall c (by rw [hp1]; exact List.mem_cons_self c t)

theorem isNumLit_head (x : List Char) (hx : isNumLit x = true) :
    ∃ c t, x = c :: t ∧ (c = '-' ∨ c.isDigit = true) := by
  cases x with
  | nil => exact absurd hx (by decide)
  | cons c t =>
    by_cases hc : c = '-'
    · exact ⟨c, t, rfl, Or.inl hc⟩
    · have hu := isUnsignedNum_of_isNumLit_cons c t hc hx
      obtain ⟨c2, t2, heq, hd⟩ := isUnsignedNum_head (c :: t) hu
      injection heq with h1 h2
      exact ⟨c, t, rfl, Or.inr (h1 ▸ hd)⟩

theorem allDigits_mem (l : List Char) (h : allDigits l = true) :
    ∀ c ∈ l, c.isDigit = true := by
  simp only [allDigits, Bool.and_eq_true, List.all_eq_true] at h
  exact h.2

theorem isNumLit_chars (x : List Char) (hx : isNumLit x = true) :
    ∀ c ∈ x, c.isDigit = true ∨ c = '-' ∨ c = '.' := by
  have core : ∀ u : List Char, isUnsignedNum u = true →
      ∀ c ∈ u, c.isDigit = true ∨ c = '-' ∨ c = '.' := by
    intro u hu c hc
    rw [isUnsignedNum] at hu
    cases hsp : splitOnceChar '.' u with
    | none =>
      rw [hsp] at hu
      dsimp only at hu
      exact Or.inl (allDigits_mem u hu c hc)
    | some p =>
      rw [hsp] at hu
      dsimp only at hu
      rw [Bool.and_eq_true] at hu
      obtain ⟨hdecomp, _⟩ := splitOnceChar_eq_some '.' u p.1 p.2 hsp
      rw [hdecomp] at hc
      rcases List.mem_append.mp hc with hc | hc
      · exact Or.inl (allDigits_mem p.1 hu.1 c hc)
      · rcases List.mem_cons.mp hc with hc | hc
        · exact Or.inr (Or.inr hc)
        · exact Or.inl (allDigits_mem p.2 hu.2 c hc)
  cases x with
  | nil => intro c hc; simp at hc
  | cons d t =>
    intro c hc
    by_cases hd : d = '-'
    · subst hd
      rcases List.mem_cons.mp hc with hc | hc
      · exact Or.inr (Or.inl hc)
      · exact core t hx c hc
    · have hu := isUnsignedNum_of_isNumLit_cons d t hd hx
      exact core (d :: t) hu c hc

theorem dropWs_numLit (x r : List Char) (hx : isNumLit x = true) :
    dropWs (x ++ r) = x ++ r := by
  obtain ⟨c, t, heq, hor⟩ := isNumLit_head x hx
  subst heq
  rw [List.cons_append]
  refine dropWs_cons_of_neg c (t ++ r) ?_
  rcases hor with h | h
  · subst h; decide
  · exact digit_not_ws c h

/-! ## Matcher step lemmas -/

theorem matchLit_nil_pat (l : List Char) : matchLit [] l = some l := rfl

theorem matchLit_cons_self (c : Char) (cs l : List Char) :
    matchLit (c :: cs) (c :: l) = matchLit cs l := by
  rw [matchLit, if_pos rfl]

theorem matchLit_cons_ne (c d : Char) (cs l : List Char) (h : ¬ c = d) :
    matchLit (c :: cs) (d :: l) = none := by
  rw [matchLit, if_neg h]

theorem matchLit_self_append (p r : List Char) : matchLit p (p ++ r) = some r := by
  induction p with
  | nil => rfl
  | cons c cs ih => rw [List.cons_append, matchLit_cons_self]; exact ih

theorem matchElems_one (one : List Char → Option (List Char × List Char))
    (s x s1 : List Char) (hone : one (dropWs s) = some (x, s1)) :
    matchElems one 1 s = some ([String.mk x], s1) := by
  rw [matchElems, hone]
  dsimp only
  rw [if_pos rfl]

theorem matchElems_step (one : List Char → Option (List Char × List Char))
    (n : Nat) (hn : n ≠ 0) (s x s1 s2 : List Char)
    (hone : one (dropWs s) = some (x, s1))
    (hcomma : matchLit [','] (dropWs s1) = some s2) :
    matchElems one (n + 1) s =
      (matchElems one n s2).map (fun p => (String.mk x :: p.1, p.2)) := by
  rw [matchElems, hone]
  dsimp only
  rw [if_neg hn, hcomma]

theorem matchElems_step_none (one : List Char → Option (List Char × List Char))
    (n : Nat) (hn : n ≠ 0) (s x s1 : List Char)
    (hone : one (dropWs s) = some (x, s1))
    (hcomma : matchLit [','] (dropWs s1) = none) :
    matchElems one (n + 1) s = none := by
  rw [matchElems, hone]
  dsimp only
  rw [if_neg hn, hcomma]

theorem matchDigits_head_none (c : Char) (l : List Char) (h : c.isDigit = false) :
    matchDigits (c :: l) = none := by
  rw [matchDigits]
  simp [List.takeWhile_cons, h]

/-! ## Branch-failure lemmas for the inference chain -/

theorem neg_of_eq_false {b : Bool} (h : b = false) : ¬ (b = true) := by
  rw [h]; exact Bool.noConfusion

theorem pyLower_data (v : String) : (pyLower v).data = v.data.map Char.toLower := rfl

theorem bool_guard_false (v : String) (c : Char) (rest : List Char)
    (hv : v.data = c :: rest) (ht : c.toLower ≠ 't') (hf : c.toLower ≠ 'f') :
    (pyLower v == "true" || pyLower v == "false") = false := by
  have key : ∀ (w : String) (d : Char), w.data.head? = some d → c.toLower ≠ d →
      (pyLower v == w) = false := by
    intro w d hw hd
    rw [beq_eq_false_iff_ne]
    intro he
    have hdata := congrArg String.data he
    rw [pyLower_data, hv, List.map_cons] at hdata
    apply hd
    have := congrArg List.head? hdata
    rw [hw] at this
    simpa using this
  rw [Bool.or_eq_false_iff]
  exact ⟨key "true" 't' rfl ht, key "false" 'f' rfl hf⟩

theorem toLower_of_isDigit (c : Char) (h : c.isDigit = true) : c.toLower = c := by
  simp only [Char.isDigit, Bool.and_eq_true, decide_eq_true_eq] at h
  obtain ⟨h1, h2⟩ := h
  have h2n : c.val.toNat ≤ 57 := by
    rw [UInt32.le_def, BitVec.le_def] at h2
    simpa using h2
  unfold Char.toLower
  rw [if_neg]
  intro hc
  obtain ⟨hc1, _⟩ := hc
  simp [Char.toNat] at hc1
  omega

theorem int_guard_false (v : String) (c : Char) (rest : List Char)
    (hv : v.data = c :: rest) (hcd : c.isDigit = false) (hcm : ¬ c = '-') :
    (pyIsDigit v ||
      (v.data.head? == some '-' && pyIsDigit (String.mk (v.data.drop 1)))) = false := by
  rw [Bool.or_eq_false_iff]
  constructor
  · rw [pyIsDigit, hv]
    simp [List.all_cons, hcd]
  · rw [hv]
    have : ((c :: rest).head? == some '-') = false := by
      rw [beq_eq_false_iff_ne]
      intro he
      rw [List.head?_cons, Option.some.injEq] at he
      exact hcm he
    rw [this, Bool.false_and]

theorem float_guard_false (c : Char) (rest : List Char)
    (hcd : c.isDigit = false) (hcm : ¬ c = '-') :
    isFloatLit (c :: rest) = false := by
  rw [isFloatLit]
  have hh : ¬ ((c :: rest).head? = some '-') := by
    rw [List.head?_cons]
    intro he
    exact hcm (Option.some.inj he)
  rw [if_neg hh, matchDigits_head_none c rest hcd]

theorem rgb_guard_false (c : Char) (rest : List Char) (h : ¬ 'R' = c) :
    matchRGB (c :: rest) = none := by
  rw [matchRGB, matchLit_cons_ne _ _ _ _ h]

theorem paren_guard_false (one : List Char → Option (List Char × List Char))
    (n : Nat) (c : Char) (rest : List Char) (h : ¬ '(' = c) :
    matchParenTuple one n (c :: rest) = none := by
  rw [matchParenTuple, matchLit_cons_ne _ _ _ _ h]

theorem isPrefixOf_cons_ne (a b : Char) (l1 l2 : List Char) (h : ¬ a = b) :
    (a :: l1).isPrefixOf (b :: l2) = false := by
  simp [List.isPrefixOf, h]

/-! ## Substring / search lemmas -/

theorem containsSubstr_of_prefix (pat l : List Char)
    (h : pat.isPrefixOf l = true) : containsSubstr pat l = true := by
  cases l with
  | nil =>
    cases pat with
    | nil => rfl
    | cons p ps => simp [List.isPrefixOf] at h
  | cons c rest =>
    rw [containsSubstr, h, Bool.true_or]

theorem containsSubstr_append_right (pat l1 l2 : List Char)
    (h : containsSubstr pat l2 = true) :
    containsSubstr pat (l1 ++ l2) = true := by
  induction l1 with
  | nil => simpa using h
  | cons c l1' ih =>
    rw [List.cons_append, containsSubstr, ih, Bool.or_true]

theorem searchKeyNum_skip (k0 : Char) (ktail l1 l2 : List Char)
    (h : ∀ c ∈ l1, ¬ c = k0) :
    searchKeyNum (k0 :: ktail) (l1 ++ l2) = searchKeyNum (k0 :: ktail) l2 := by
  induction l1 with
  | nil => rfl
  | cons c l1' ih =>
    rw [List.cons_append, searchKeyNum,
      matchLit_cons_ne k0 c ktail (l1' ++ l2)
        (fun he => h c (List.mem_cons_self c l1') he.symm)]
    exact ih (fun d hd => h d (List.mem_cons_of_mem c hd))

theorem searchKeyNum_found (k0 : Char) (ktail rest x r2 : List Char)
    (hnum : matchNum (dropWs rest) = some (x, r2)) :
    searchKeyNum (k0 :: ktail) ((k0 :: ktail) ++ rest) = some (String.mk x) := by
  rw [show (k0 :: ktail) ++ rest = k0 :: (ktail ++ rest) from rfl]
  rw [searchKeyNum]
  rw [show k0 :: (ktail ++ rest) = (k0 :: ktail) ++ rest from rfl]
  rw [matchLit_self_append]
  dsimp only
  rw [hnum]

/-! ## Line plumbing -/

theorem pyStripL_id (l : List Char)
    (h1 : ∀ c, l.head? = some c → c.isWhitespace = false)
    (h2 : ∀ c, l.getLast? = some c → c.isWhitespace = false) :
    pyStripL l = l := by
  have hfront : l.dropWhile Char.isWhitespace = l := by
    cases l with
    | nil => rfl
    | cons c rest => rw [List.dropWhile_cons_of_neg]; simp [h1 c rfl]
  have hback : l.reverse.dropWhile Char.isWhitespace = l.reverse := by
    cases hr : l.reverse with
    | nil => rfl
    | cons c rest =>
      rw [List.dropWhile_cons_of_neg]
      have : l.getLast? = some c := by
        rw [← List.head?_reverse, hr, List.head?_cons]
      simp [h2 c this]
  rw [pyStripL, hfront, hback, List.reverse_reverse]

theorem splitOnceChar_append (c : Char) (a b : List Char) (h : c ∉ a) :
    splitOnceChar c (a ++ c :: b) = some (a, b) := by
  induction a with
  | nil => rw [List.nil_append, splitOnceChar, if_pos rfl]
  | cons d a' ih =>
    rw [List.cons_append, splitOnceChar,
      if_neg (fun he => h (by rw [← he]; exact List.mem_cons_self d a'))]
    rw [ih (fun hm => h (List.mem_cons_of_mem d hm))]
    rfl

theorem mem_of_getLast?_eq (l : List Char) (a : Char) (h : l.getLast? = some a) :
    a ∈ l := by
  induction l with
  | nil => simp at h
  | cons c cs ih =>
    cases cs with
    | nil => simp [List.getLast?] at h; simp [h]
    | cons d ds =>
      rw [List.getLast?_cons_cons] at h
      exact List.mem_cons_of_mem c (ih h)

theorem getLast?_append_right (l1 l2 : List Char) (a : Char)
    (h : l2.getLast? = some a) : (l1 ++ l2).getLast? = some a := by
  rw [List.getLast?_append, h]; rfl

theorem pyStripL_space_cons (l : List Char)
    (h1 : ∀ c, l.head? = some c → c.isWhitespace = false)
    (h2 : ∀ c, l.getLast? = some c → c.isWhitespace = false) :
    pyStripL (' ' :: l) = l := by
  have hid := pyStripL_id l h1 h2
  rw [pyStripL] at hid ⊢
  rw [List.dropWhile_cons_of_pos (by decide)]
  exact hid

/-- A well-formed value line `- name: value` parses to the name together with
the type/value inferred from the value text. -/
theorem parse_property_line_eq (name value : String)
    (hname : ∀ c ∈ name.data, ¬ c = ':' ∧ c.isWhitespace = false)
    (hv_ne : value.data ≠ [])
    (hv_head : ∀ c, value.data.head? = some c → c.isWhitespace = false)
    (hv_last : ∀ c, value.data.getLast? = some c → c.isWhitespace = false) :
    parse_property_from_md ("- " ++ name ++ ": " ++ value) =
      some ((infer_property value).1, name, (infer_property value).2) := by
  have hdata : ("- " ++ name ++ ": " ++ value).data =
      '-' :: ' ' :: (name.data ++ ':' :: ' ' :: value.data) := by
    rw [String.data_append, String.data_append, String.data_append]
    simp
  obtain ⟨vl, hvl⟩ : ∃ a, value.data.getLast? = some a := by
    cases hgl : value.data.getLast? with
    | none => exact absurd (List.getLast?_eq_none_iff.mp hgl) hv_ne
    | some a => exact ⟨a, rfl⟩
  have hlast : ('-' :: ' ' :: (name.data ++ ':' :: ' ' :: value.data)).getLast? =
      some vl := by
    rw [show '-' :: ' ' :: (name.data ++ ':' :: ' ' :: value.data) =
      ('-' :: ' ' :: name.data ++ [':', ' ']) ++ value.data by simp]
    exact getLast?_append_right _ _ _ hvl
  have hstrip : pyStripL ('-' :: ' ' :: (name.data ++ ':' :: ' ' :: value.data)) =
      '-' :: ' ' :: (name.data ++ ':' :: ' ' :: value.data) := by
    apply pyStripL_id
    · intro c hc
      rw [List.head?_cons, Option.some.injEq] at hc
      rw [← hc]; decide
    · intro c hc
      rw [hlast, Option.some.injEq] at hc
      exact hc ▸ hv_last vl hvl
  have hcolon : ':' ∉ name.data := fun hm => (hname ':' hm).1 rfl
  have hsplit : splitOnceChar ':' (name.data ++ ':' :: ' ' :: value.data) =
      some (name.data, ' ' :: value.data) :=
    splitOnceChar_append ':' name.data (' ' :: value.data) hcolon
  have hsn : pyStripL name.data = name.data := by
    apply pyStripL_id
    · intro c hc
      exact (hname c (List.mem_of_mem_head? hc)).2
    · intro c hc
      exact (hname c (mem_of_getLast?_eq _ _ hc)).2
  have hsv : pyStripL (' ' :: value.data) = value.data :=
    pyStripL_space_cons value.data hv_head hv_last
  rw [parse_property_from_md]
  rw [hdata, hstrip]
  rw [show ('-' :: ' ' :: (name.data ++ ':' :: ' ' :: value.data)).drop 2 =
    name.data ++ ':' :: ' ' :: value.data from rfl]
  rw [hsplit]
  rw [show (('-' :: ' ' :: (name.data ++ ':' :: ' ' :: value.data)).head? ==
    some '-') = true from rfl]
  rw [if_neg (by decide)]
  dsimp only
  rw [hsn, hsv]

/-! ## Positive tuple-parse lemmas -/

theorem allDigits_head (a : List Char) (ha : allDigits a = true) :
    ∃ c t, a = c :: t ∧ c.isDigit = true := by
  simp only [allDigits, Bool.and_eq_true, Bool.not_eq_true',
    List.isEmpty_eq_false, List.all_eq_true] at ha
  obtain ⟨hne, hall⟩ := ha
  cases a with
  | nil => simp at hne
  | cons c t => exact ⟨c, t, rfl, hall c (List.mem_cons_self c t)⟩

theorem dropWs_digits (a r : List Char) (ha : allDigits a = true) :
    dropWs (a ++ r) = a ++ r := by
  obtain ⟨c, t, heq, hd⟩ := allDigits_head a ha
  subst heq
  rw [List.cons_append]
  exact dropWs_cons_of_neg c (t ++ r) (digit_not_ws c hd)

theorem matchNum_elem (x r : List Char) (hx : isNumLit x = true)
    (hr : numBoundary r) : matchNum (dropWs (x ++ r)) = some (x, r) := by
  rw [dropWs_numLit x r hx]
  exact matchNum_append x r hx hr

theorem matchDigits_elem (a r : List Char) (ha : allDigits a = true)
    (hr : numBoundary r) : matchDigits (dropWs (a ++ r)) = some (a, r) := by
  rw [dropWs_digits a r ha]
  exact matchDigits_append a r ha
    (fun z hz => ((numBoundary_head r hr) z hz).1)

theorem comma_step (l : List Char) :
    matchLit [','] (dropWs (',' :: ' ' :: l)) = some (' ' :: l) := by
  rw [dropWs_cons_of_neg ',' (' ' :: l) (by decide), matchLit_cons_self]
  rfl

theorem close_step : matchLit [')'] (dropWs [')']) = some [] := by
  rfl

theorem matchParenTuple_num3 (x y z : List Char)
    (hx : isNumLit x = true) (hy : isNumLit y = true) (hz : isNumLit z = true) :
    matchParenTuple matchNum 3
      ('(' :: (x ++ ',' :: ' ' :: (y ++ ',' :: ' ' :: (z ++ [')'])))) =
      some [String.mk x, String.mk y, String.mk z] := by
  rw [matchParenTuple, matchLit_cons_self, matchLit_nil_pat]
  dsimp only
  have hone1 : matchNum (dropWs (x ++ ',' :: ' ' :: (y ++ ',' :: ' ' :: (z ++ [')'])))) =
      some (x, ',' :: ' ' :: (y ++ ',' :: ' ' :: (z ++ [')']))) :=
    matchNum_elem x _ hx (Or.inr (Or.inl rfl))
  rw [matchElems_step matchNum 2 (by decide) _ _ _ _ hone1 (comma_step _)]
  have hone2 : matchNum (dropWs (' ' :: (y ++ ',' :: ' ' :: (z ++ [')'])))) =
      some (y, ',' :: ' ' :: (z ++ [')'])) := by
    rw [dropWs_space]
    exact matchNum_elem y _ hy (Or.inr (Or.inl rfl))
  rw [matchElems_step matchNum 1 (by decide) _ _ _ _ hone2 (comma_step _)]
  have hone3 : matchNum (dropWs (' ' :: (z ++ [')']))) = some (z, [')']) := by
    rw [dropWs_space]
    exact matchNum_elem z _ hz (Or.inr (Or.inr rfl))
  rw [matchElems_one matchNum _ _ _ hone3]
  dsimp only [Option.map_some']
  rw [close_step]
  rfl

theorem matchParenTuple_num2 (x y : List Char)
    (hx : isNumLit x = true) (hy : isNumLit y = true) :
    matchParenTuple matchNum 2
      ('(' :: (x ++ ',' :: ' ' :: (y ++ [')']))) =
      some [String.mk x, String.mk y] := by
  rw [matchParenTuple, matchLit_cons_self, matchLit_nil_pat]
  dsimp only
  have hone1 : matchNum (dropWs (x ++ ',' :: ' ' :: (y ++ [')']))) =
      some (x, ',' :: ' ' :: (y ++ [')'])) :=
    matchNum_elem x _ hx (Or.inr (Or.inl rfl))
  rw [matchElems_step matchNum 1 (by decide) _ _ _ _ hone1 (comma_step _)]
  have hone2 : matchNum (dropWs (' ' :: (y ++ [')']))) = some (y, [')']) := by
    rw [dropWs_space]
    exact matchNum_elem y _ hy (Or.inr (Or.inr rfl))
  rw [matchElems_one matchNum _ _ _ hone2]
  dsimp only [Option.map_some']
  rw [close_step]
  rfl

theorem matchParenTuple_num3_fails_on_pair (x y : List Char)
    (hx : isNumLit x = true) (hy : isNumLit y = true) :
    matchParenTuple matchNum 3
      ('(' :: (x ++ ',' :: ' ' :: (y ++ [')']))) = none := by
  rw [matchParenTuple, matchLit_cons_self, matchLit_nil_pat]
  dsimp only
  have hone1 : matchNum (dropWs (x ++ ',' :: ' ' :: (y ++ [')']))) =
      some (x, ',' :: ' ' :: (y ++ [')'])) :=
    matchNum_elem x _ hx (Or.inr (Or.inl rfl))
  rw [matchElems_step matchNum 2 (by decide) _ _ _ _ hone1 (comma_step _)]
  have hone2 : matchNum (dropWs (' ' :: (y ++ [')']))) = some (y, [')']) := by
    rw [dropWs_space]
    exact matchNum_elem y _ hy (Or.inr (Or.inr rfl))
  rw [matchElems_step_none matchNum 1 (by decide) _ _ _ hone2 (by rfl)]
  rfl

theorem matchRGB_pos (a b g : List Char)
    (ha : allDigits a = true) (hb : allDigits b = true) (hg : allDigits g = true) :
    matchRGB ('R' :: 'G' :: 'B' :: '(' ::
        (a ++ ',' :: ' ' :: (b ++ ',' :: ' ' :: (g ++ [')'])))) =
      some [String.mk a, String.mk b, String.mk g] := by
  rw [matchRGB,
    show ('R' :: 'G' :: 'B' :: '(' ::
        (a ++ ',' :: ' ' :: (b ++ ',' :: ' ' :: (g ++ [')'])))) =
      ['R', 'G', 'B'] ++ ('(' ::
        (a ++ ',' :: ' ' :: (b ++ ',' :: ' ' :: (g ++ [')'])))) from rfl,
    matchLit_self_append]
  dsimp only
  rw [dropWs_cons_of_neg '(' _ (by decide)]
  rw [matchParenTuple, matchLit_cons_self, matchLit_nil_pat]
  dsimp only
  have hone1 : matchDigits (dropWs (a ++ ',' :: ' ' :: (b ++ ',' :: ' ' :: (g ++ [')'])))) =
      some (a, ',' :: ' ' :: (b ++ ',' :: ' ' :: (g ++ [')']))) :=
    matchDigits_elem a _ ha (Or.inr (Or.inl rfl))
  rw [matchElems_step matchDigits 2 (by decide) _ _ _ _ hone1 (comma_step _)]
  have hone2 : matchDigits (dropWs (' ' :: (b ++ ',' :: ' ' :: (g ++ [')'])))) =
      some (b, ',' :: ' ' :: (g ++ [')'])) := by
    rw [dropWs_space]
    exact matchDigits_elem b _ hb (Or.inr (Or.inl rfl))
  rw [matchElems_step matchDigits 1 (by decide) _ _ _ _ hone2 (comma_step _)]
  have hone3 : matchDigits (dropWs (' ' :: (g ++ [')']))) = some (g, [')']) := by
    rw [dropWs_space]
    exact matchDigits_elem g _ hg (Or.inr (Or.inr rfl))
  rw [matchElems_one matchDigits _ _ _ hone3]
  dsimp only [Option.map_some']
  rw [close_step]
  rfl

/-! ## Comma-joined component lists (CFrame support) -/

/-- The character list of `", ".join(components)`. -/
def commaJoin : List (List Char) → List Char
  | [] => []
  | [x] => x
  | x :: xs => x ++ ',' :: ' ' :: commaJoin xs

theorem commaJoin_cons (x : List Char) (xs : List (List Char)) :
    commaJoin (x :: xs) = x ++ (xs.map (fun a => ',' :: ' ' :: a)).flatten := by
  induction xs generalizing x with
  | nil => simp [commaJoin]
  | cons y ys ih =>
    rw [show commaJoin (x :: y :: ys) = x ++ ',' :: ' ' :: commaJoin (y :: ys) from rfl,
      ih y]
    simp

theorem intercalate_go_data (acc : String) (as : List String) :
    (String.intercalate.go acc ", " as).data =
      acc.data ++ (as.map (fun a => ',' :: ' ' :: a.data)).flatten := by
  induction as generalizing acc with
  | nil => simp [String.intercalate.go]
  | cons a as ih =>
    rw [String.intercalate.go, ih]
    simp [String.data_append]

theorem intercalate_data (cs : List String) :
    (String.intercalate ", " cs).data = commaJoin (cs.map String.data) := by
  cases cs with
  | nil => rfl
  | cons x xs =>
    rw [String.intercalate, intercalate_go_data, List.map_cons, commaJoin_cons]
    rw [List.map_map]
    rfl

theorem isPrefixOf_self_append (p r : List Char) : p.isPrefixOf (p ++ r) = true := by
  induction p with
  | nil => simp [List.isPrefixOf]
  | cons c cs ih => simp [List.isPrefixOf]

theorem beforeLast_concat (inner : List Char) :
    beforeLast ')' (inner ++ [')']) = some inner := by
  rw [beforeLast, List.reverse_append]
  rw [show ([')'] : List Char).reverse ++ inner.reverse = ')' :: inner.reverse by simp]
  rw [List.dropWhile_cons_of_neg (by decide)]
  dsimp only
  rw [List.reverse_reverse]

theorem splitOnChar_nosep (c : Char) (a : List Char) (h : c ∉ a) :
    splitOnChar c a = [a] := by
  induction a with
  | nil => rfl
  | cons d a' ih =>
    rw [splitOnChar, if_neg (fun he => h (by rw [← he]; exact List.mem_cons_self d a'))]
    rw [ih (fun hm => h (List.mem_cons_of_mem d hm))]

theorem splitOnChar_sep_append (c : Char) (a rest : List Char) (h : c ∉ a) :
    splitOnChar c (a ++ c :: rest) = a :: splitOnChar c rest := by
  induction a with
  | nil => rw [List.nil_append, splitOnChar, if_pos rfl]
  | cons d a' ih =>
    rw [List.cons_append, splitOnChar,
      if_neg (fun he => h (by rw [← he]; exact List.mem_cons_self d a'))]
    rw [ih (fun hm => h (List.mem_cons_of_mem d hm))]

theorem splitOnChar_commaJoin (x : List Char) (xs : List (List Char))
    (hx : ',' ∉ x) (h : ∀ y ∈ xs, ',' ∉ y) :
    splitOnChar ',' (commaJoin (x :: xs)) = x :: xs.map (fun y => ' ' :: y) := by
  induction xs generalizing x with
  | nil => exact splitOnChar_nosep ',' x hx
  | cons y ys ih =>
    rw [show commaJoin (x :: y :: ys) = x ++ ',' :: ' ' :: commaJoin (y :: ys) from rfl]
    rw [splitOnChar_sep_append ',' x _ hx]
    rw [splitOnChar, if_neg (by decide)]
    rw [ih y (h y (List.mem_cons_self y ys)) (fun z hz => h z (List.mem_cons_of_mem y hz))]
    rfl

/-! ## Stripping numeric components -/

theorem numLit_char_not_ws (x : List Char) (hx : isNumLit x = true) :
    ∀ c ∈ x, c.isWhitespace = false := by
  intro c hc
  rcases isNumLit_chars x hx c hc with h | h | h
  · exact digit_not_ws c h
  · rw [h]; decide
  · rw [h]; decide

theorem pyStripL_numLit (x : List Char) (hx : isNumLit x = true) :
    pyStripL x = x := by
  apply pyStripL_id
  · intro c hc
    exact numLit_char_not_ws x hx c (List.mem_of_mem_head? hc)
  · intro c hc
    exact numLit_char_not_ws x hx c (mem_of_getLast?_eq _ _ hc)

theorem pyStripL_space_numLit (x : List Char) (hx : isNumLit x = true) :
    pyStripL (' ' :: x) = x := by
  apply pyStripL_space_cons
  · intro c hc
    exact numLit_char_not_ws x hx c (List.mem_of_mem_head? hc)
  · intro c hc
    exact numLit_char_not_ws x hx c (mem_of_getLast?_eq _ _ hc)

theorem numLit_ne_char (x : List Char) (hx : isNumLit x = true) (d : Char)
    (hdig : d.isDigit = false) (hdash : ¬ d = '-') (hdot : ¬ d = '.') :
    ∀ c ∈ x, ¬ c = d := by
  intro c hc he
  rcases isNumLit_chars x hx c hc with h | h | h
  · rw [he] at h; rw [h] at hdig; exact Bool.noConfusion hdig
  · exact hdash (he ▸ h)
  · exact hdot (he ▸ h)

/-! ## Shape-level decode lemmas -/

theorem infer_vector3 (x y z : String)
    (hx : isNumLit x.data = true) (hy : isNumLit y.data = true)
    (hz : isNumLit z.data = true) :
    infer_property ("(" ++ x ++ ", " ++ y ++ ", " ++ z ++ ")") =
      ("Vector3", some (.tup [x, y, z])) := by
  have hdata : ("(" ++ x ++ ", " ++ y ++ ", " ++ z ++ ")").data =
      '(' :: (x.data ++ ',' :: ' ' :: (y.data ++ ',' :: ' ' :: (z.data ++ [')']))) := by
    simp [String.data_append]
  have h1 := bool_guard_false _ '(' _ hdata (by decide) (by decide)
  have h2 := int_guard_false _ '(' _ hdata (by decide) (by decide)
  have h3 : isFloatLit ("(" ++ x ++ ", " ++ y ++ ", " ++ z ++ ")").data = false := by
    rw [hdata]; exact float_guard_false '(' _ (by decide) (by decide)
  have h4 : matchRGB ("(" ++ x ++ ", " ++ y ++ ", " ++ z ++ ")").data = none := by
    rw [hdata]; exact rgb_guard_false '(' _ (by decide)
  have h5 : matchParenTuple matchNum 3 ("(" ++ x ++ ", " ++ y ++ ", " ++ z ++ ")").data =
      some [x, y, z] := by
    rw [hdata]
    exact matchParenTuple_num3 x.data y.data z.data hx hy hz
  simp only [infer_property]
  rw [if_neg (neg_of_eq_false h1), if_neg (neg_of_eq_false h2),
    if_neg (neg_of_eq_false h3), h4, if_neg (by decide), h5,
    if_pos (show (some [x, y, z] : Option (List String)).isSome = true from rfl)]
  rfl

theorem infer_vector2 (x y : String)
    (hx : isNumLit x.data = true) (hy : isNumLit y.data = true) :
    infer_property ("(" ++ x ++ ", " ++ y ++ ")") =
      ("Vector2", some (.tup [x, y])) := by
  have hdata : ("(" ++ x ++ ", " ++ y ++ ")").data =
      '(' :: (x.data ++ ',' :: ' ' :: (y.data ++ [')'])) := by
    simp [String.data_append]
  have h1 := bool_guard_false _ '(' _ hdata (by decide) (by decide)
  have h2 := int_guard_false _ '(' _ hdata (by decide) (by decide)
  have h3 : isFloatLit ("(" ++ x ++ ", " ++ y ++ ")").data = false := by
    rw [hdata]; exact float_guard_false '(' _ (by decide) (by decide)
  have h4 : matchRGB ("(" ++ x ++ ", " ++ y ++ ")").data = none := by
    rw [hdata]; exact rgb_guard_false '(' _ (by decide)
  have h5 : matchParenTuple matchNum 3 ("(" ++ x ++ ", " ++ y ++ ")").data = none := by
    rw [hdata]
    exact matchParenTuple_num3_fails_on_pair x.data y.data hx hy
  have h6 : matchParenTuple matchNum 2 ("(" ++ x ++ ", " ++ y ++ ")").data =
      some [x, y] := by
    rw [hdata]
    exact matchParenTuple_num2 x.data y.data hx hy
  simp only [infer_property]
  rw [if_neg (neg_of_eq_false h1), if_neg (neg_of_eq_false h2),
    if_neg (neg_of_eq_false h3), h4, if_neg (by decide), h5, if_neg (by decide), h6,
    if_pos (show (some [x, y] : Option (List String)).isSome = true from rfl)]
  rfl

theorem infer_rgb (a b g : String)
    (ha : allDigits a.data = true) (hb : allDigits b.data = true)
    (hg : allDigits g.data = true) :
    infer_property ("RGB(" ++ a ++ ", " ++ b ++ ", " ++ g ++ ")") =
      ("Color3uint8", some (.tup [a, b, g])) := by
  have hdata : ("RGB(" ++ a ++ ", " ++ b ++ ", " ++ g ++ ")").data =
      'R' :: 'G' :: 'B' :: '(' ::
        (a.data ++ ',' :: ' ' :: (b.data ++ ',' :: ' ' :: (g.data ++ [')']))) := by
    simp [String.data_append]
  have h1 := bool_guard_false _ 'R' _ hdata (by decide) (by decide)
  have h2 := int_guard_false _ 'R' _ hdata (by decide) (by decide)
  have h3 : isFloatLit ("RGB(" ++ a ++ ", " ++ b ++ ", " ++ g ++ ")").data = false := by
    rw [hdata]; exact float_guard_false 'R' _ (by decide) (by decide)
  have h4 : matchRGB ("RGB(" ++ a ++ ", " ++ b ++ ", " ++ g ++ ")").data =
      some [a, b, g] := by
    rw [hdata]
    exact matchRGB_pos a.data b.data g.data ha hb hg
  simp only [infer_property]
  rw [if_neg (neg_of_eq_false h1), if_neg (neg_of_eq_false h2),
    if_neg (neg_of_eq_false h3), h4,
    if_pos (show (some [a, b, g] : Option (List String)).isSome = true from rfl)]
  rfl

theorem containsSubstr_cons_tail (pat : List Char) (c : Char) (l : List Char)
    (h : containsSubstr pat l = true) : containsSubstr pat (c :: l) = true := by
  rw [containsSubstr, h, Bool.or_true]

theorem infer_udim (s o : String)
    (hs : isNumLit s.data = true) (ho : isNumLit o.data = true) :
    infer_property ("Scale: " ++ s ++ ", Offset: " ++ o) =
      ("UDim", some (.tup [s, o])) := by
  have hdata : ("Scale: " ++ s ++ ", Offset: " ++ o).data =
      'S' :: 'c' :: 'a' :: 'l' :: 'e' :: ':' :: ' ' ::
        (s.data ++ ',' :: ' ' ::
          ('O' :: 'f' :: 'f' :: 's' :: 'e' :: 't' :: ':' :: ' ' :: o.data)) := by
    simp [String.data_append]
  have h1 := bool_guard_false _ 'S' _ hdata (by decide) (by decide)
  have h2 := int_guard_false _ 'S' _ hdata (by decide) (by decide)
  have h3 : isFloatLit ("Scale: " ++ s ++ ", Offset: " ++ o).data = false := by
    rw [hdata]; exact float_guard_false 'S' _ (by decide) (by decide)
  have h4 : matchRGB ("Scale: " ++ s ++ ", Offset: " ++ o).data = none := by
    rw [hdata]; exact rgb_guard_false 'S' _ (by decide)
  have h5 : matchParenTuple matchNum 3 ("Scale: " ++ s ++ ", Offset: " ++ o).data =
      none := by
    rw [hdata]; exact paren_guard_false matchNum 3 'S' _ (by decide)
  have h6 : matchParenTuple matchNum 2 ("Scale: " ++ s ++ ", Offset: " ++ o).data =
      none := by
    rw [hdata]; exact paren_guard_false matchNum 2 'S' _ (by decide)
  have h7 : (['C', 'F', 'r', 'a', 'm', 'e', '('].isPrefixOf
      ("Scale: " ++ s ++ ", Offset: " ++ o).data) = false := by
    rw [hdata]
    exact isPrefixOf_cons_ne 'C' 'S' _ _ (by decide)
  have h8 : (containsSubstr ['S', 'c', 'a', 'l', 'e', ':']
        ("Scale: " ++ s ++ ", Offset: " ++ o).data &&
      containsSubstr ['O', 'f', 'f', 's', 'e', 't', ':']
        ("Scale: " ++ s ++ ", Offset: " ++ o).data) = true := by
    rw [hdata]
    refine Bool.and_eq_true_iff.mpr ⟨?_, ?_⟩
    · exact containsSubstr_of_prefix _ _ (by simp [List.isPrefixOf])
    · refine containsSubstr_cons_tail _ _ _ ?_
      refine containsSubstr_cons_tail _ _ _ ?_
      refine containsSubstr_cons_tail _ _ _ ?_
      refine containsSubstr_cons_tail _ _ _ ?_
      refine containsSubstr_cons_tail _ _ _ ?_
      refine containsSubstr_cons_tail _ _ _ ?_
      refine containsSubstr_cons_tail _ _ _ ?_
      refine containsSubstr_append_right _ _ _ ?_
      refine containsSubstr_cons_tail _ _ _ ?_
      refine containsSubstr_cons_tail _ _ _ ?_
      exact containsSubstr_of_prefix _ _ (by simp [List.isPrefixOf])
  have hdws : dropWs o.data = o.data := by
    have := dropWs_numLit o.data [] ho
    simpa using this
  have hmo : matchNum o.data = some (o.data, []) := by
    have := matchNum_append o.data [] ho (Or.inl rfl)
    simpa using this
  have h9 : searchKeyNum ['S', 'c', 'a', 'l', 'e', ':']
      ("Scale: " ++ s ++ ", Offset: " ++ o).data = some s := by
    rw [hdata]
    have hnum : matchNum (dropWs (' ' :: (s.data ++ ',' :: ' ' ::
        ('O' :: 'f' :: 'f' :: 's' :: 'e' :: 't' :: ':' :: ' ' :: o.data)))) =
        some (s.data, ',' :: ' ' ::
          ('O' :: 'f' :: 'f' :: 's' :: 'e' :: 't' :: ':' :: ' ' :: o.data)) := by
      rw [dropWs_space]
      exact matchNum_elem s.data _ hs (Or.inr (Or.inl rfl))
    exact searchKeyNum_found 'S' ['c', 'a', 'l', 'e', ':'] _ s.data _ hnum
  have h10 : searchKeyNum ['O', 'f', 'f', 's', 'e', 't', ':']
      ("Scale: " ++ s ++ ", Offset: " ++ o).data = some o := by
    rw [hdata]
    rw [show ('S' :: 'c' :: 'a' :: 'l' :: 'e' :: ':' :: ' ' ::
        (s.data ++ ',' :: ' ' ::
          ('O' :: 'f' :: 'f' :: 's' :: 'e' :: 't' :: ':' :: ' ' :: o.data))) =
      (['S', 'c', 'a', 'l', 'e', ':', ' '] ++ s.data ++ [',', ' ']) ++
        ('O' :: 'f' :: 'f' :: 's' :: 'e' :: 't' :: ':' :: ' ' :: o.data) by simp]
    rw [searchKeyNum_skip 'O' ['f', 'f', 's', 'e', 't', ':'] _ _ ?hno]
    case hno =>
      intro c hc
      rcases List.mem_append.mp hc with hc | hc
      · rcases List.mem_append.mp hc with hc | hc
        · simp only [List.mem_cons, List.not_mem_nil, or_false] at hc
          rcases hc with rfl | rfl | rfl | rfl | rfl | rfl | rfl <;> decide
        · exact numLit_ne_char s.data hs 'O' (by decide) (by decide) (by decide) c hc
      · simp only [List.mem_cons, List.not_mem_nil, or_false] at hc
        rcases hc with rfl | rfl <;> decide
    have hnum : matchNum (dropWs (' ' :: o.data)) = some (o.data, []) := by
      rw [dropWs_space, hdws]
      exact hmo
    exact searchKeyNum_found 'O' ['f', 'f', 's', 'e', 't', ':'] _ o.data _ hnum
  simp only [infer_property]
  rw [if_neg (neg_of_eq_false h1), if_neg (neg_of_eq_false h2),
    if_neg (neg_of_eq_false h3), h4, if_neg (by decide), h5, if_neg (by decide),
    h6, if_neg (by decide), h7, if_neg (by decide), if_pos h8, h9, h10]

theorem map_strip_space (l : List (List Char)) (h : ∀ y ∈ l, isNumLit y = true) :
    (l.map (fun y => ' ' :: y)).map (fun comp => String.mk (pyStripL comp)) =
      l.map String.mk := by
  induction l with
  | nil => rfl
  | cons d ds ih =>
    rw [List.map_cons, List.map_cons, List.map_cons]
    rw [pyStripL_space_numLit d (h d (List.mem_cons_self d ds))]
    rw [ih (fun y hy => h y (List.mem_cons_of_mem d hy))]

theorem map_mk_data (l : List String) : (l.map String.data).map String.mk = l := by
  induction l with
  | nil => rfl
  | cons d ds ih => rw [List.map_cons, List.map_cons, ih]

theorem infer_cframe (c0 : String) (rest : List String)
    (hlen : rest.length = 11)
    (h0 : isNumLit c0.data = true)
    (hrest : ∀ c ∈ rest, isNumLit c.data = true) :
    infer_property ("CFrame(" ++ String.intercalate ", " (c0 :: rest) ++ ")") =
      ("CFrame", some (.tup (c0 :: rest))) := by
  have hdata : ("CFrame(" ++ String.intercalate ", " (c0 :: rest) ++ ")").data =
      'C' :: 'F' :: 'r' :: 'a' :: 'm' :: 'e' :: '(' ::
        (commaJoin ((c0 :: rest).map String.data) ++ [')']) := by
    simp [String.data_append, intercalate_data]
  have h1 := bool_guard_false _ 'C' _ hdata (by decide) (by decide)
  have h2 := int_guard_false _ 'C' _ hdata (by decide) (by decide)
  have h3 : isFloatLit ("CFrame(" ++ String.intercalate ", " (c0 :: rest) ++ ")").data =
      false := by
    rw [hdata]; exact float_guard_false 'C' _ (by decide) (by decide)
  have h4 : matchRGB ("CFrame(" ++ String.intercalate ", " (c0 :: rest) ++ ")").data =
      none := by
    rw [hdata]; exact rgb_guard_false 'C' _ (by decide)
  have h5 : matchParenTuple matchNum 3
      ("CFrame(" ++ String.intercalate ", " (c0 :: rest) ++ ")").data = none := by
    rw [hdata]; exact paren_guard_false matchNum 3 'C' _ (by decide)
  have h6 : matchParenTuple matchNum 2
      ("CFrame(" ++ String.intercalate ", " (c0 :: rest) ++ ")").data = none := by
    rw [hdata]; exact paren_guard_false matchNum 2 'C' _ (by decide)
  have h7 : (['C', 'F', 'r', 'a', 'm', 'e', '('].isPrefixOf
      ("CFrame(" ++ String.intercalate ", " (c0 :: rest) ++ ")").data) = true := by
    rw [hdata]; simp [List.isPrefixOf]
  have h8 : beforeLast ')'
      (("CFrame(" ++ String.intercalate ", " (c0 :: rest) ++ ")").data.drop 7) =
      some (commaJoin ((c0 :: rest).map String.data)) := by
    rw [hdata]
    rw [show ('C' :: 'F' :: 'r' :: 'a' :: 'm' :: 'e' :: '(' ::
        (commaJoin ((c0 :: rest).map String.data) ++ [')'])).drop 7 =
      commaJoin ((c0 :: rest).map String.data) ++ [')'] from rfl]
    exact beforeLast_concat _
  have h9 : splitOnChar ',' (commaJoin ((c0 :: rest).map String.data)) =
      c0.data :: (rest.map String.data).map (fun y => ' ' :: y) := by
    rw [List.map_cons]
    refine splitOnChar_commaJoin c0.data (rest.map String.data) ?_ ?_
    · intro hm
      exact numLit_ne_char c0.data h0 ',' (by decide) (by decide) (by decide) ',' hm rfl
    · intro y hy hm
      obtain ⟨c, hcmem, rfl⟩ := List.mem_map.mp hy
      exact numLit_ne_char c.data (hrest c hcmem) ','
        (by decide) (by decide) (by decide) ',' hm rfl
  have h10 : (splitOnChar ',' (commaJoin ((c0 :: rest).map String.data))).map
      (fun comp => String.mk (pyStripL comp)) = c0 :: rest := by
    rw [h9, List.map_cons, pyStripL_numLit c0.data h0, map_strip_space _ ?hnl,
      map_mk_data]
    case hnl =>
      intro y hy
      obtain ⟨c, hcmem, rfl⟩ := List.mem_map.mp hy
      exact hrest c hcmem
  simp only [infer_property]
  rw [if_neg (neg_of_eq_false h1), if_neg (neg_of_eq_false h2),
    if_neg (neg_of_eq_false h3), h4, if_neg (by decide), h5, if_neg (by decide),
    h6, if_neg (by decide), if_pos h7, h8]
  dsimp only
  rw [h10]
  rw [if_pos (show (c0 :: rest).length = 12 by rw [List.length_cons, hlen])]

/-! ## Shape property elements and their encodings -/

/-- A `Vector3` property element with component texts. -/
def v3PropElem (name x y z : String) : Elem :=
  .mk "Vector3" [("name", name)] none
    [.mk "X" [] (some x) [], .mk "Y" [] (some y) [], .mk "Z" [] (some z) []]

/-- A `Vector2` property element with component texts. -/
def v2PropElem (name x y : String) : Elem :=
  .mk "Vector2" [("name", name)] none
    [.mk "X" [] (some x) [], .mk "Y" [] (some y) []]

/-- A `Color3uint8` property element with channel texts. -/
def rgbPropElem (name r g b : String) : Elem :=
  .mk "Color3uint8" [("name", name)] none
    [.mk "R" [] (some r) [], .mk "G" [] (some g) [], .mk "B" [] (some b) []]

/-- A `UDim` property element with scale/offset texts. -/
def udimPropElem (name s o : String) : Elem :=
  .mk "UDim" [("name", name)] none
    [.mk "S" [] (some s) [], .mk "O" [] (some o) []]

/-- A `CFrame` property element with the twelve component texts. -/
def cfPropElem (name c0 c1 c2 c3 c4 c5 c6 c7 c8 c9 c10 c11 : String) : Elem :=
  .mk "CFrame" [("name", name)] none
    [.mk "V0" [] (some c0) [], .mk "V1" [] (some c1) [],
     .mk "V2" [] (some c2) [], .mk "V3" [] (some c3) [],
     .mk "V4" [] (some c4) [], .mk "V5" [] (some c5) [],
     .mk "V6" [] (some c6) [], .mk "V7" [] (some c7) [],
     .mk "V8" [] (some c8) [], .mk "V9" [] (some c9) [],
     .mk "V10" [] (some c10) [], .mk "V11" [] (some c11) []]

/-- A concrete `UDim2` property element. -/
def udim2PropElem : Elem :=
  .mk "UDim2" [("name", "Size")] none
    [.mk "XS" [] (some "1") [], .mk "XO" [] (some "2") [],
     .mk "YS" [] (some "3") [], .mk "YO" [] (some "4") []]

/-- A concrete `NumberRange` property element. -/
def rangePropElem : Elem :=
  .mk "NumberRange" [("name", "HeightRange")] none
    [.mk "Min" [] (some "1") [], .mk "Max" [] (some "2") []]

/-- A concrete `Rect2D` property element. -/
def rectPropElem : Elem :=
  .mk "Rect2D" [("name", "SliceRect")] none
    [.mk "min_x" [] (some "1") [], .mk "min_y" [] (some "2") [],
     .mk "max_x" [] (some "3") [], .mk "max_y" [] (some "4") []]

theorem format_v3PropElem (name x y z : String) (hname : (name == "") = false) :
    format_property_for_md (v3PropElem name x y z) 0 =
      some ("- " ++ name ++ ": " ++ ("(" ++ x ++ ", " ++ y ++ ", " ++ z ++ ")")) := by
  simp [format_property_for_md, v3PropElem, Elem.attrD, Elem.attr, Elem.attrs,
    Elem.tag, Elem.children, Elem.text, childTextD, Elem.findChild, textOr,
    pyStr, pyIndent, hname, String.append_assoc]

theorem format_v2PropElem (name x y : String) (hname : (name == "") = false) :
    format_property_for_md (v2PropElem name x y) 0 =
      some ("- " ++ name ++ ": " ++ ("(" ++ x ++ ", " ++ y ++ ")")) := by
  simp [format_property_for_md, v2PropElem, Elem.attrD, Elem.attr, Elem.attrs,
    Elem.tag, Elem.children, Elem.text, childTextD, Elem.findChild, textOr,
    pyStr, pyIndent, hname, String.append_assoc]

theorem format_rgbPropElem (name r g b : String) (hname : (name == "") = false) :
    format_property_for_md (rgbPropElem name r g b) 0 =
      some ("- " ++ name ++ ": " ++ ("RGB(" ++ r ++ ", " ++ g ++ ", " ++ b ++ ")")) := by
  simp [format_property_for_md, rgbPropElem, Elem.attrD, Elem.attr, Elem.attrs,
    Elem.tag, Elem.children, Elem.text, childTextD, Elem.findChild, textOr,
    pyStr, pyIndent, hname, String.append_assoc]

theorem format_udimPropElem (name s o : String) (hname : (name == "") = false) :
    format_property_for_md (udimPropElem name s o) 0 =
      some ("- " ++ name ++ ": " ++ ("Scale: " ++ s ++ ", Offset: " ++ o)) := by
  simp [format_property_for_md, udimPropElem, Elem.attrD, Elem.attr, Elem.attrs,
    Elem.tag, Elem.children, Elem.text, childTextD, Elem.findChild, textOr,
    pyStr, pyIndent, hname, String.append_assoc]

theorem format_cfPropElem (name c0 c1 c2 c3 c4 c5 c6 c7 c8 c9 c10 c11 : String)
    (hname : (name == "") = false) :
    format_property_for_md (cfPropElem name c0 c1 c2 c3 c4 c5 c6 c7 c8 c9 c10 c11) 0 =
      some ("- " ++ name ++ ": " ++ ("CFrame(" ++
        String.intercalate ", " [c0, c1, c2, c3, c4, c5, c6, c7, c8, c9, c10, c11] ++
        ")")) := by
  simp [format_property_for_md, cfPropElem, Elem.attrD, Elem.attr, Elem.attrs,
    Elem.tag, Elem.children, Elem.text,
    pyIndent, hname, String.append_assoc]
  exact ⟨[c0, c1, c2, c3, c4, c5, c6, c7, c8, c9, c10, c11], rfl, rfl⟩

theorem format_udim2PropElem :
    format_property_for_md udim2PropElem 0 =
      some "- Size: X(Scale: 1, Offset: 2), Y(Scale: 3, Offset: 4)" := by
  simp [format_property_for_md, udim2PropElem, Elem.attrD, Elem.attr, Elem.attrs,
    Elem.tag, Elem.children, Elem.text, childTextD, Elem.findChild, textOr,
    pyStr, pyIndent]

theorem format_rangePropElem :
    format_property_for_md rangePropElem 0 =
      some "- HeightRange: Range(1 to 2)" := by
  simp [format_property_for_md, rangePropElem, Elem.attrD, Elem.attr, Elem.attrs,
    Elem.tag, Elem.children, Elem.text, childTextD, Elem.findChild, textOr,
    pyStr, pyIndent]

theorem format_rectPropElem :
    format_property_for_md rectPropElem 0 =
      some "- SliceRect: Rect(1, 2, 3, 4)" := by
  simp [format_property_for_md, rectPropElem, Elem.attrD, Elem.attr, Elem.attrs,
    Elem.tag, Elem.children, Elem.text, childTextD, Elem.findChild, textOr,
    pyStr, pyIndent]

/-! ## Line-level decode of each encoded shape -/

/-- A property name that survives the markdown line format: nonempty, no
colon, no whitespace. -/
def plainName (name : String) : Prop :=
  (name == "") = false ∧ ∀ c ∈ name.data, ¬ c = ':' ∧ c.isWhitespace = false

instance (name : String) : Decidable (plainName name) := by
  unfold plainName
  infer_instance

theorem parse_v3_line (name x y z : String) (hn : plainName name)
    (hx : isNumLit x.data = true) (hy : isNumLit y.data = true)
    (hz : isNumLit z.data = true) :
    parse_property_from_md
        ("- " ++ name ++ ": " ++ ("(" ++ x ++ ", " ++ y ++ ", " ++ z ++ ")")) =
      some ("Vector3", name, some (.tup [x, y, z])) := by
  have hdata : ("(" ++ x ++ ", " ++ y ++ ", " ++ z ++ ")").data =
      '(' :: (x.data ++ ',' :: ' ' :: (y.data ++ ',' :: ' ' :: (z.data ++ [')']))) := by
    simp [String.data_append]
  have hdata2 : ("(" ++ x ++ ", " ++ y ++ ", " ++ z ++ ")").data =
      ('(' :: (x.data ++ ',' :: ' ' :: (y.data ++ ',' :: ' ' :: z.data))) ++ [')'] := by
    simp [String.data_append]
  have h := parse_property_line_eq name ("(" ++ x ++ ", " ++ y ++ ", " ++ z ++ ")")
    hn.2
    (by rw [hdata]; exact List.cons_ne_nil _ _)
    (by intro c hc
        rw [hdata, List.head?_cons, Option.some.injEq] at hc
        rw [← hc]; decide)
    (by intro c hc
        rw [hdata2, List.getLast?_concat, Option.some.injEq] at hc
        rw [← hc]; decide)
  rw [h, infer_vector3 x y z hx hy hz]

theorem parse_v2_line (name x y : String) (hn : plainName name)
    (hx : isNumLit x.data = true) (hy : isNumLit y.data = true) :
    parse_property_from_md ("- " ++ name ++ ": " ++ ("(" ++ x ++ ", " ++ y ++ ")")) =
      some ("Vector2", name, some (.tup [x, y])) := by
  have hdata : ("(" ++ x ++ ", " ++ y ++ ")").data =
      '(' :: (x.data ++ ',' :: ' ' :: (y.data ++ [')'])) := by
    simp [String.data_append]
  have hdata2 : ("(" ++ x ++ ", " ++ y ++ ")").data =
      ('(' :: (x.data ++ ',' :: ' ' :: y.data)) ++ [')'] := by
    simp [String.data_append]
  have h := parse_property_line_eq name ("(" ++ x ++ ", " ++ y ++ ")")
    hn.2
    (by rw [hdata]; exact List.cons_ne_nil _ _)
    (by intro c hc
        rw [hdata, List.head?_cons, Option.some.injEq] at hc
        rw [← hc]; decide)
    (by intro c hc
        rw [hdata2, List.getLast?_concat, Option.some.injEq] at hc
        rw [← hc]; decide)
  rw [h, infer_vector2 x y hx hy]

theorem parse_rgb_line (name r g b : String) (hn : plainName name)
    (hr : allDigits r.data = true) (hg : allDigits g.data = true)
    (hb : allDigits b.data = true) :
    parse_property_from_md
        ("- " ++ name ++ ": " ++ ("RGB(" ++ r ++ ", " ++ g ++ ", " ++ b ++ ")")) =
      some ("Color3uint8", name, some (.tup [r, g, b])) := by
  have hdata : ("RGB(" ++ r ++ ", " ++ g ++ ", " ++ b ++ ")").data =
      'R' :: 'G' :: 'B' :: '(' ::
        (r.data ++ ',' :: ' ' :: (g.data ++ ',' :: ' ' :: (b.data ++ [')']))) := by
    simp [String.data_append]
  have hdata2 : ("RGB(" ++ r ++ ", " ++ g ++ ", " ++ b ++ ")").data =
      ('R' :: 'G' :: 'B' :: '(' ::
        (r.data ++ ',' :: ' ' :: (g.data ++ ',' :: ' ' :: b.data))) ++ [')'] := by
    simp [String.data_append]
  have h := parse_property_line_eq name ("RGB(" ++ r ++ ", " ++ g ++ ", " ++ b ++ ")")
    hn.2
    (by rw [hdata]; exact List.cons_ne_nil _ _)
    (by intro c hc
        rw [hdata, List.head?_cons, Option.some.injEq] at hc
        rw [← hc]; decide)
    (by intro c hc
        rw [hdata2, List.getLast?_concat, Option.some.injEq] at hc
        rw [← hc]; decide)
  rw [h, infer_rgb r g b hr hg hb]

theorem parse_cf_line (name c0 : String) (rest : List String) (hn : plainName name)
    (hlen : rest.length = 11)
    (h0 : isNumLit c0.data = true)
    (hrest : ∀ c ∈ rest, isNumLit c.data = true) :
    parse_property_from_md ("- " ++ name ++ ": " ++
        ("CFrame(" ++ String.intercalate ", " (c0 :: rest) ++ ")")) =
      some ("CFrame", name, some (.tup (c0 :: rest))) := by
  have hdata : ("CFrame(" ++ String.intercalate ", " (c0 :: rest) ++ ")").data =
      'C' :: 'F' :: 'r' :: 'a' :: 'm' :: 'e' :: '(' ::
        (commaJoin ((c0 :: rest).map String.data) ++ [')']) := by
    simp [String.data_append, intercalate_data]
  have hdata2 : ("CFrame(" ++ String.intercalate ", " (c0 :: rest) ++ ")").data =
      ('C' :: 'F' :: 'r' :: 'a' :: 'm' :: 'e' :: '(' ::
        commaJoin ((c0 :: rest).map String.data)) ++ [')'] := by
    simp [String.data_append, intercalate_data]
  have h := parse_property_line_eq name
    ("CFrame(" ++ String.intercalate ", " (c0 :: rest) ++ ")")
    hn.2
    (by rw [hdata]; exact List.cons_ne_nil _ _)
    (by intro c hc
        rw [hdata, List.head?_cons, Option.some.injEq] at hc
        rw [← hc]; decide)
    (by intro c hc
        rw [hdata2, List.getLast?_concat, Option.some.injEq] at hc
        rw [← hc]; decide)
  rw [h, infer_cframe c0 rest hlen h0 hrest]

theorem parse_udim_line (name s o : String) (hn : plainName name)
    (hs : isNumLit s.data = true) (ho : isNumLit o.data = true) :
    parse_property_from_md
        ("- " ++ name ++ ": " ++ ("Scale: " ++ s ++ ", Offset: " ++ o)) =
      some ("UDim", name, some (.tup [s, o])) := by
  have hdata : ("Scale: " ++ s ++ ", Offset: " ++ o).data =
      'S' :: 'c' :: 'a' :: 'l' :: 'e' :: ':' :: ' ' ::
        (s.data ++ ',' :: ' ' ::
          ('O' :: 'f' :: 'f' :: 's' :: 'e' :: 't' :: ':' :: ' ' :: o.data)) := by
    simp [String.data_append]
  have hdata2 : ("Scale: " ++ s ++ ", Offset: " ++ o).data =
      ('S' :: 'c' :: 'a' :: 'l' :: 'e' :: ':' :: ' ' ::
        (s.data ++ [',', ' ', 'O', 'f', 'f', 's', 'e', 't', ':', ' '])) ++ o.data := by
    simp [String.data_append]
  obtain ⟨oc, ot, hoeq, _⟩ := isNumLit_head o.data ho
  have holast0 : ∃ a, o.data.getLast? = some a := by
    rw [hoeq]
    cases hgl : (oc :: ot).getLast? with
    | none =>
      rw [List.getLast?_eq_none_iff] at hgl
      exact absurd hgl (List.cons_ne_nil oc ot)
    | some a => exact ⟨a, rfl⟩
  obtain ⟨olast, holast⟩ := holast0
  have h := parse_property_line_eq name ("Scale: " ++ s ++ ", Offset: " ++ o)
    hn.2
    (by rw [hdata]; exact List.cons_ne_nil _ _)
    (by intro c hc
        rw [hdata, List.head?_cons, Option.some.injEq] at hc
        rw [← hc]; decide)
    (by intro c hc
        rw [hdata2, getLast?_append_right _ _ olast holast, Option.some.injEq] at hc
        rw [← hc]
        exact numLit_char_not_ws o.data ho olast (mem_of_getLast?_eq _ _ holast))
  rw [h, infer_udim s o hs ho]

/-- The value text matches none of the specific decode patterns of
`parse_property_from_md` (every guard of the inference chain is false). -/
def noPatternMatches (v : String) : Bool :=
  !(pyLower v == "true" || pyLower v == "false") &&
  !(pyIsDigit v || (v.data.head? == some '-' && pyIsDigit (String.mk (v.data.drop 1)))) &&
  !(isFloatLit v.data) &&
  !(matchRGB v.data).isSome &&
  !(matchParenTuple matchNum 3 v.data).isSome &&
  !(matchParenTuple matchNum 2 v.data).isSome &&
  !(['C', 'F', 'r', 'a', 'm', 'e', '('].isPrefixOf v.data) &&
  !(containsSubstr ['S', 'c', 'a', 'l', 'e', ':'] v.data &&
    containsSubstr ['O', 'f', 'f', 's', 'e', 't', ':'] v.data) &&
  !(containsSubstr ['[', 'B', 'i', 'n', 'a', 'r', 'y', ' ', 'D', 'a', 't', 'a', ']'] v.data) &&
  !(['S', 'h', 'a', 'r', 'e', 'd', 'S', 't', 'r', 'i', 'n', 'g', '('].isPrefixOf v.data) &&
  !(['R', 'e', 'f', '('].isPrefixOf v.data) &&
  !(['E', 'n', 'u', 'm', '('].isPrefixOf v.data) &&
  !(['B', 'r', 'i', 'c', 'k', 'C', 'o', 'l', 'o', 'r', '('].isPrefixOf v.data) &&
  !(['C', 'o', 'l', 'o', 'r', '3', '('].isPrefixOf v.data)

/-- **C2** (counterexample): the claimed round-trip fails for UDim2,
NumberRange and Rect2D values: the encoded UDim2 line decodes as a UDim
carrying only the X components, and the encoded NumberRange and Rect2D
lines decode as plain strings, so `decode (encode v)` does not return the
same shape tag for these three shapes. -/
theorem c2_counterexample_roundtrip :
    (format_property_for_md udim2PropElem 0 =
        some "- Size: X(Scale: 1, Offset: 2), Y(Scale: 3, Offset: 4)" ∧
      parse_property_from_md "- Size: X(Scale: 1, Offset: 2), Y(Scale: 3, Offset: 4)" =
        some ("UDim", "Size", some (.tup ["1", "2"]))) ∧
    (format_property_for_md rangePropElem 0 = some "- HeightRange: Range(1 to 2)" ∧
      parse_property_from_md "- HeightRange: Range(1 to 2)" =
        some ("string", "HeightRange", some (.s "Range(1 to 2)"))) ∧
    (format_property_for_md rectPropElem 0 = some "- SliceRect: Rect(1, 2, 3, 4)" ∧
      parse_property_from_md "- SliceRect: Rect(1, 2, 3, 4)" =
        some ("string", "SliceRect", some (.s "Rect(1, 2, 3, 4)"))) :=
  ⟨⟨format_udim2PropElem, by decide⟩,
   ⟨format_rangePropElem, by decide⟩,
   ⟨format_rectPropElem, by decide⟩⟩

/-- **C2** (amended): the structured round-trip does hold for Vector3,
Vector2, Color3uint8, CFrame and UDim property values built from
numeric-literal components: encoding the property element and decoding
the emitted line returns the same shape tag and the same component
texts. -/
theorem c2_amended_structured_roundtrip :
    (∀ name x y z : String, plainName name →
      isNumLit x.data = true → isNumLit y.data = true → isNumLit z.data = true →
      format_property_for_md (v3PropElem name x y z) 0 =
        some ("- " ++ name ++ ": " ++ ("(" ++ x ++ ", " ++ y ++ ", " ++ z ++ ")")) ∧
      parse_property_from_md
          ("- " ++ name ++ ": " ++ ("(" ++ x ++ ", " ++ y ++ ", " ++ z ++ ")")) =
        some ("Vector3", name, some (.tup [x, y, z]))) ∧
    (∀ name x y : String, plainName name →
      isNumLit x.data = true → isNumLit y.data = true →
      format_property_for_md (v2PropElem name x y) 0 =
        some ("- " ++ name ++ ": " ++ ("(" ++ x ++ ", " ++ y ++ ")")) ∧
      parse_property_from_md ("- " ++ name ++ ": " ++ ("(" ++ x ++ ", " ++ y ++ ")")) =
        some ("Vector2", name, some (.tup [x, y]))) ∧
    (∀ name r g b : String, plainName name →
      allDigits r.data = true → allDigits g.data = true → allDigits b.data = true →
      format_property_for_md (rgbPropElem name r g b) 0 =
        some ("- " ++ name ++ ": " ++ ("RGB(" ++ r ++ ", " ++ g ++ ", " ++ b ++ ")")) ∧
      parse_property_from_md
          ("- " ++ name ++ ": " ++ ("RGB(" ++ r ++ ", " ++ g ++ ", " ++ b ++ ")")) =
        some ("Color3uint8", name, some (.tup [r, g, b]))) ∧
    (∀ name c0 c1 c2 c3 c4 c5 c6 c7 c8 c9 c10 c11 : String, plainName name →
      (∀ c ∈ [c0, c1, c2, c3, c4, c5, c6, c7, c8, c9, c10, c11],
        isNumLit c.data = true) →
      format_property_for_md (cfPropElem name c0 c1 c2 c3 c4 c5 c6 c7 c8 c9 c10 c11) 0 =
        some ("- " ++ name ++ ": " ++ ("CFrame(" ++
          String.intercalate ", " [c0, c1, c2, c3, c4, c5, c6, c7, c8, c9, c10, c11] ++
          ")")) ∧
      parse_property_from_md ("- " ++ name ++ ": " ++ ("CFrame(" ++
          String.intercalate ", " [c0, c1, c2, c3, c4, c5, c6, c7, c8, c9, c10, c11] ++
          ")")) =
        some ("CFrame", name,
          some (.tup [c0, c1, c2, c3, c4, c5, c6, c7, c8, c9, c10, c11]))) ∧
    (∀ name s o : String, plainName name →
      isNumLit s.data = true → isNumLit o.data = true →
      format_property_for_md (udimPropElem name s o) 0 =
        some ("- " ++ name ++ ": " ++ ("Scale: " ++ s ++ ", Offset: " ++ o)) ∧
      parse_property_from_md
          ("- " ++ name ++ ": " ++ ("Scale: " ++ s ++ ", Offset: " ++ o)) =
        some ("UDim", name, some (.tup [s, o]))) := by
  refine ⟨?_, ?_, ?_, ?_, ?_⟩
  · intro name x y z hn hx hy hz
    exact ⟨format_v3PropElem name x y z hn.1, parse_v3_line name x y z hn hx hy hz⟩
  · intro name x y hn hx hy
    exact ⟨format_v2PropElem name x y hn.1, parse_v2_line name x y hn hx hy⟩
  · intro name r g b hn hr hg hb
    exact ⟨format_rgbPropElem name r g b hn.1, parse_rgb_line name r g b hn hr hg hb⟩
  · intro name c0 c1 c2 c3 c4 c5 c6 c7 c8 c9 c10 c11 hn hall
    have h0 : isNumLit c0.data = true := hall c0 (by simp)
    have hrest : ∀ c ∈ [c1, c2, c3, c4, c5, c6, c7, c8, c9, c10, c11],
        isNumLit c.data = true := by
      intro c hc
      exact hall c (List.mem_cons_of_mem c0 hc)
    exact ⟨format_cfPropElem name c0 c1 c2 c3 c4 c5 c6 c7 c8 c9 c10 c11 hn.1,
      parse_cf_line name c0 [c1, c2, c3, c4, c5, c6, c7, c8, c9, c10, c11]
        hn rfl h0 hrest⟩
  · intro name s o hn hs ho
    exact ⟨format_udimPropElem name s o hn.1, parse_udim_line name s o hn hs ho⟩

theorem c2_amended_structured_roundtrip_witness :
    plainName "Position" ∧ isNumLit "1".data = true ∧ isNumLit "2.5".data = true ∧
    isNumLit "-3".data = true ∧
    parse_property_from_md
        ("- " ++ "Position" ++ ": " ++ ("(" ++ "1" ++ ", " ++ "2.5" ++ ", " ++ "-3" ++ ")")) =
      some ("Vector3", "Position", some (.tup ["1", "2.5", "-3"])) :=
  ⟨by decide, by decide, by decide, by decide,
    (c2_amended_structured_roundtrip.1 "Position" "1" "2.5" "-3"
      (by decide) (by decide) (by decide) (by decide)).2⟩

/-- **C7**: an all-digits value text, optionally with a leading minus sign,
is classified as Int32 exactly when its magnitude is at most 2147483647 and
as Int64 otherwise; this check sits before the float, tuple and wrapped-form
patterns of the inference chain, so the result is always the int/int64 pair. -/
theorem c7_int_decode_rule (v : String)
    (h : allDigits v.data = true ∨
      (v.data.head? = some '-' ∧ allDigits (v.data.drop 1) = true)) :
    infer_property v =
      (if 2147483647 < (pyInt v).natAbs then "int64" else "int", some (.s v)) := by
  have hguard : (pyIsDigit v ||
      (v.data.head? == some '-' && pyIsDigit (String.mk (v.data.drop 1)))) = true := by
    rcases h with h | ⟨hh, hd⟩
    · rw [Bool.or_eq_true]; left; exact h
    · rw [Bool.or_eq_true]; right
      rw [Bool.and_eq_true]
      refine ⟨?_, hd⟩
      rw [hh]
      decide
  have hne : v.data ≠ [] := by
    rcases h with h | ⟨hh, _⟩
    · simp only [allDigits, Bool.and_eq_true, Bool.not_eq_true',
        List.isEmpty_eq_false] at h
      exact h.1
    · intro he; rw [he] at hh; exact Option.noConfusion hh
  obtain ⟨c, rest, hv⟩ : ∃ c rest, v.data = c :: rest := by
    cases hv : v.data with
    | nil => exact absurd hv hne
    | cons c rest => exact ⟨c, rest, rfl⟩
  have hcd : c.isDigit = true ∨ c = '-' := by
    rcases h with h | ⟨hh, _⟩
    · exact Or.inl (allDigits_mem v.data h c (by rw [hv]; exact List.mem_cons_self c rest))
    · rw [hv, List.head?_cons, Option.some.injEq] at hh
      exact Or.inr hh
  have h1 := bool_guard_false v c rest hv ?ht ?hf
  case ht =>
    rcases hcd with hd | hd
    · rw [toLower_of_isDigit c hd]
      intro he
      rw [he] at hd
      exact absurd hd (by decide)
    · rw [hd]; decide
  case hf =>
    rcases hcd with hd | hd
    · rw [toLower_of_isDigit c hd]
      intro he
      rw [he] at hd
      exact absurd hd (by decide)
    · rw [hd]; decide
  simp only [infer_property]
  rw [if_neg (neg_of_eq_false h1), if_pos hguard]

theorem c7_int_decode_rule_witness :
    infer_property "2147483648" = ("int64", some (.s "2147483648")) ∧
    infer_property "2147483647" = ("int", some (.s "2147483647")) ∧
    infer_property "-2147483648" = ("int64", some (.s "-2147483648")) := by
  refine ⟨?_, ?_, ?_⟩
  · rw [c7_int_decode_rule "2147483648" (Or.inl (by decide))]
    decide
  · rw [c7_int_decode_rule "2147483647" (Or.inl (by decide))]
    decide
  · rw [c7_int_decode_rule "-2147483648" (Or.inr ⟨by decide, by decide⟩)]
    decide

/-- **C8**: decode is total on well-formed property lines (a stripped line
starting with `-` whose remainder contains a colon always yields some typed
triple), and whenever no specific pattern matches the value text the result
is the plain String variant carrying the text unchanged. -/
theorem c8_decode_total_default_string :
    (∀ (line : String) (p1 p2 : List Char),
      (pyStripL line.data).head? = some '-' →
      splitOnceChar ':' ((pyStripL line.data).drop 2) = some (p1, p2) →
      parse_property_from_md line =
        some ((infer_property (String.mk (pyStripL p2))).1,
          String.mk (pyStripL p1),
          (infer_property (String.mk (pyStripL p2))).2)) ∧
    (∀ value : String, noPatternMatches value = true →
      infer_property value = ("string", some (.s value))) := by
  constructor
  · intro line p1 p2 h1 h2
    simp only [parse_property_from_md]
    rw [h1, h2]
    rw [if_neg (by decide)]
  · intro value h
    simp only [noPatternMatches, Bool.and_eq_true, Bool.not_eq_true'] at h
    obtain ⟨⟨⟨⟨⟨⟨⟨⟨⟨⟨⟨⟨⟨h1, h2⟩, h3⟩, h4⟩, h5⟩, h6⟩, h7⟩, h8⟩, h9⟩, h10⟩,
      h11⟩, h12⟩, h13⟩, h14⟩ := h
    simp only [infer_property]
    rw [if_neg (neg_of_eq_false h1), if_neg (neg_of_eq_false h2),
      if_neg (neg_of_eq_false h3), if_neg (neg_of_eq_false h4),
      if_neg (neg_of_eq_false h5), if_neg (neg_of_eq_false h6),
      if_neg (neg_of_eq_false h7), if_neg (neg_of_eq_false h8),
      if_neg (neg_of_eq_false h9), if_neg (neg_of_eq_false h10),
      if_neg (neg_of_eq_false h11), if_neg (neg_of_eq_false h12),
      if_neg (neg_of_eq_false h13), if_neg (neg_of_eq_false h14)]

theorem c8_decode_total_default_string_witness :
    parse_property_from_md "- Material: Plastic" =
      some ((infer_property (String.mk (pyStripL " Plastic".data))).1,
        String.mk (pyStripL "Material".data),
        (infer_property (String.mk (pyStripL " Plastic".data))).2) ∧
    infer_property "Plastic" = ("string", some (.s "Plastic")) :=
  ⟨c8_decode_total_default_string.1 "- Material: Plastic" "Material".data
      " Plastic".data (by decide) (by decide),
    c8_decode_total_default_string.2 "Plastic" (by decide)⟩

/-! ## md-to-rbxlx: value typing and hierarchy building -/

/-- The mantissa part of a Python float literal: `\d+`, `\d+.`, `\d+.\d+`
or `.\d+`. -/
def floatMantissa (l : List Char) : Bool :=
  match splitOnceChar '.' l with
  | none => allDigits l
  | some (a, b) =>
    if a.isEmpty then allDigits b
    else if b.isEmpty then allDigits a
    else allDigits a && allDigits b

/-- Acceptance of Python `float(value)` (sign, mantissa, optional
exponent, `inf`/`infinity`/`nan`, surrounding whitespace). -/
def pyFloatAccepts (s : String) : Bool :=
  let l := pyStripL s.data
  let l1 := match l with
    | c :: r => if c = '+' ∨ c = '-' then r else l
    | [] => l
  let low := l1.map Char.toLower
  if low = "inf".data ∨ low = "infinity".data ∨ low = "nan".data then true
  else
    match splitOnceChar 'e' low with
    | none => floatMantissa low
    | some (m, ex) =>
      floatMantissa m &&
        (match ex with
         | c :: r => if c = '+' ∨ c = '-' then allDigits r else allDigits ex
         | [] => false)

/-- `determine_property_type` (md-to-rbxlx.py lines 58-78): `None` is
`nil`; booleans; then the `float(value)` probe choosing `float`/`int` by
the presence of a dot; otherwise `string`. -/
def determine_property_type (value : Option String) : String :=
  match value with
  | none => "nil"
  | some v =>
    if pyLower v == "true" || pyLower v == "false" then "bool"
    else if pyFloatAccepts v then
      (if v.data.contains '.' then "float" else "int")
    else "string"

/-- One node of the reconstructed hierarchy dict of
`build_item_hierarchy`: `unique_id`, `class_name`, `properties` (name to
optional value and type), `children` (an insertion-ordered dict). -/
inductive HNode : Type where
  | mk (unique_id : String) (class_name : Option String)
      (properties : List (String × Option String × String))
      (children : List (String × HNode)) : HNode

/-- Python `current[part]` lookup. -/
def dictGet (h : List (String × HNode)) (k : String) : Option HNode :=
  (h.find? (fun p => p.1 == k)).map Prod.snd

/-- Python `current[part] = v`: update in place if the key exists
(keeping its position), else append. -/
def dictSet : List (String × HNode) → String → HNode → List (String × HNode)
  | [], k, v => [(k, v)]
  | (k2, v2) :: rest, k, v =>
    if k2 = k then (k, v) :: rest else (k2, v2) :: dictSet rest k v

/-- The per-record loop body of `build_item_hierarchy` (md-to-rbxlx.py
lines 99-126): walk the path parts; the last part is assigned a fresh
node built from the record (children `{}`), an absent intermediate part
becomes a `Folder` placeholder with a generated id (`gen ctr`), a present
intermediate part is descended into through its `children`. -/
def insertPath (gen : Nat → String) (ctr : Nat) (h : List (String × HNode)) :
    List String → String → Option String →
    List (String × Option String × String) → List (String × HNode) × Nat
  | [], _, _, _ => (h, ctr)
  | [part], uid, cls, props => (dictSet h part (.mk uid cls props []), ctr)
  | part :: rest, uid, cls, props =>
    match dictGet h part with
    | some (.mk u c p ch) =>
      let r := insertPath gen ctr ch rest uid cls props
      (dictSet h part (.mk u c p r.1), r.2)
    | none =>
      let r := insertPath gen (ctr + 1) [] rest uid cls props
      (dictSet h part (.mk (gen ctr) (some "Folder") [] r.1), r.2)

/-- The fold of `build_item_hierarchy` over the flat record list, with
the uuid counter threaded through. -/
def buildLoop (gen : Nat → String) :
    List (String × HNode) × Nat →
    List (String × String × Option String × List (String × Option String × String)) →
    List (String × HNode) × Nat
  | acc, [] => acc
  | acc, (path, uid, cls, props) :: rest =>
    buildLoop gen (insertPath gen acc.2 acc.1 (parse_path_components path) uid cls props) rest

/-- `build_item_hierarchy` (md-to-rbxlx.py lines 94-130). -/
def build_item_hierarchy (gen : Nat → String)
    (items : List (String × String × Option String ×
      List (String × Option String × String))) : List (String × HNode) :=
  (buildLoop gen ([], 0) items).1

/-- **C9** (counterexample): inserting `A.B` and then `A` loses the child
`B`: the final-segment assignment replaces the placeholder node for `A`
wholesale with a node whose `children` is empty, instead of merging the
record's data into the existing node and keeping its children. -/
theorem c9_counterexample_children_lost :
    build_item_hierarchy (fun n => toString n)
      [("A.B", "U1", some "Part", []), ("A", "U2", some "Model", [])] =
    [("A", .mk "U2" (some "Model") [] [])] := by
  simp [build_item_hierarchy, buildLoop, insertPath, parse_path_components,
    parse_path_components_aux, dictGet, dictSet]

/-- **C9** (amended): a missing intermediate segment is created as a
`Folder` placeholder with a generated identifier and empty properties;
the final segment receives the record's real id, class and properties;
and a record whose path matches an existing node replaces that node in
place (no duplicate key is created) but resets its children to `{}`, so
children previously attached to a placeholder are discarded rather than
preserved. -/
theorem c9_amended_insert_contract :
    (∀ (gen : Nat → String) (ctr : Nat) (h : List (String × HNode))
        (part : String) (rest : List String) (uid : String) (cls : Option String)
        (props : List (String × Option String × String)),
      rest ≠ [] → dictGet h part = none →
      insertPath gen ctr h (part :: rest) uid cls props =
        (dictSet h part (.mk (gen ctr) (some "Folder") []
          (insertPath gen (ctr + 1) [] rest uid cls props).1),
         (insertPath gen (ctr + 1) [] rest uid cls props).2)) ∧
    (∀ (gen : Nat → String) (ctr : Nat) (h : List (String × HNode))
        (part uid : String) (cls : Option String)
        (props : List (String × Option String × String)),
      insertPath gen ctr h [part] uid cls props =
        (dictSet h part (.mk uid cls props []), ctr)) ∧
    (∀ (gen : Nat → String) (ctr : Nat) (part u0 : String) (c0 : Option String)
        (pr0 : List (String × Option String × String))
        (ch : List (String × HNode)) (uid : String) (cls : Option String)
        (props : List (String × Option String × String)),
      insertPath gen ctr [(part, .mk u0 c0 pr0 ch)] [part] uid cls props =
        ([(part, .mk uid cls props [])], ctr)) := by
  refine ⟨?_, ?_, ?_⟩
  · intro gen ctr h part rest uid cls props hne habs
    cases rest with
    | nil => exact absurd rfl hne
    | cons r rs =>
      simp only [insertPath]
      rw [habs]
  · intro gen ctr h part uid cls props
    rfl
  · intro gen ctr part u0 c0 pr0 ch uid cls props
    simp [insertPath, dictSet]

theorem c9_amended_insert_contract_witness :
    (["B"] : List String) ≠ [] ∧ dictGet [] "A" = none ∧
    insertPath (fun n => toString n) 0 [] ["A", "B"] "U1" (some "Part") [] =
      ([("A", .mk "0" (some "Folder") []
        [("B", .mk "U1" (some "Part") [] [])])], 1) := by
  refine ⟨List.cons_ne_nil _ _, rfl, ?_⟩
  rw [c9_amended_insert_contract.1 (fun n => toString n) 0 [] "A" ["B"] "U1"
    (some "Part") [] (List.cons_ne_nil _ _) rfl]
  rfl

/-- **C10**: every simple (non-`None`) value is typed `bool`, `int`,
`float` or `string` by `determine_property_type`; `nil` is returned
exactly for a valueless (`None`) input; and structured literal forms such
as `RGB(...)`, `CFrame(...)`, tuples, `Ref(...)` or `Enum(...)` all come
back as `string`. -/
theorem c10_simple_property_types :
    (∀ v : String,
      determine_property_type (some v) = "bool" ∨
      determine_property_type (some v) = "int" ∨
      determine_property_type (some v) = "float" ∨
      determine_property_type (some v) = "string") ∧
    (∀ ov : Option String, determine_property_type ov = "nil" ↔ ov = none) ∧
    (determine_property_type (some "RGB(255, 0, 0)") = "string" ∧
     determine_property_type (some "CFrame(1, 0, 0, 0, 1, 0, 0, 0, 1, 0, 0, 0)") =
       "string" ∧
     determine_property_type (some "(1, 2, 3)") = "string" ∧
     determine_property_type (some "Ref(RBX123)") = "string" ∧
     determine_property_type (some "Enum(5)") = "string") := by
  refine ⟨?_, ?_, by decide, by decide, by decide, by decide, by decide⟩
  · intro v
    simp only [determine_property_type]
    split_ifs <;> simp
  · intro ov
    cases ov with
    | none => simp [determine_property_type]
    | some v =>
      simp only [determine_property_type]
      constructor
      · intro h
        split_ifs at h <;> exact absurd h (by decide)
      · intro h
        exact Option.noConfusion h

end RbxlxMd
